import Mathlib

/-! MakeReels front end: the upload-and-track orchestrator of `App.js`

A shallow embedding of the client-side logic of `src/frontend/src/App.js`:
the component state, the validators, the file-selection handler, the handler
of one status poll and the two timers armed by `startStatusPolling`, the
cosmetic progress timer, the download handler, the processing kickoff
`handleGetShorts` and the upload request with its listeners.

JavaScript strings are modelled by `String`; a regular expression of the
source is modelled by the character predicate it denotes.
-/

namespace MakeReels

/-! ## Contact validation (`validatePhoneNumber`, App.js 24-44) -/

/-- The character class `\d` of the source's regular expressions: the ASCII
digits `0` to `9`. -/
def isDigitChar (c : Char) : Bool := decide (48 ≤ c.toNat) && decide (c.toNat ≤ 57)

/-- The call `phone.replace(/\D/g, '')`: every character that is not an ASCII
digit is deleted. -/
def replaceNonDigits (phone : String) : String := ⟨phone.data.filter isDigitChar⟩

/-- The test `/^\d+$/.test(s)`: the string is not empty and all its characters
are ASCII digits. -/
def testOnlyDigits (s : String) : Bool := !s.data.isEmpty && s.data.all isDigitChar

/-- The object returned by `validatePhoneNumber`. -/
structure PhoneValidation where
  isValid : Bool
  message : String
deriving DecidableEq, Repr

/-- The function `validatePhoneNumber` of App.js, lines 24-44. -/
def validatePhoneNumber (phone : String) : PhoneValidation :=
  let cleanPhone := replaceNonDigits phone
  -- `!cleanPhone`: the empty string is the only falsy string
  if cleanPhone.data.isEmpty then
    { isValid := false, message := "Please enter your phone number" }
  else if cleanPhone.data.length < 7 || cleanPhone.data.length > 15 then
    { isValid := false, message := "Please enter a valid phone number (7-15 digits)" }
  else if !testOnlyDigits cleanPhone then
    { isValid := false, message := "Phone number should contain only digits" }
  else
    { isValid := true, message := "" }

/-! ## Component state (`useState` hooks, App.js 8-20) -/

/-- The object held in `uploadStatus`: a kind (`error`, `info`, `success`) and
a message. -/
structure UploadStatus where
  type : String
  message : String
deriving DecidableEq, Repr

/-- A file of the picker, as far as the component reads it: `file.name`,
`file.size` (bytes) and `file.type` (the declared media type). -/
structure File where
  name : String
  size : Nat
  type : String
deriving DecidableEq, Repr

/-- The object held in `uploadedVideo` (App.js 248-252). -/
structure UploadedVideo where
  task_id : String
  filename : String
  file : Option File
deriving DecidableEq, Repr

/-- One entry of `resultFiles` (App.js 310-314). -/
structure ResultFile where
  filename : String
  size : ℚ
  download_url : String
deriving DecidableEq

/-- The state of the `App` component: one field per `useState` hook, in the
order of the source. `null` is `none`; the `Set` of `downloadingFiles` is the
list of its members in insertion order. -/
structure AppState where
  phoneNumber : String
  isLoading : Bool
  selectedFile : Option File
  uploadProgress : Int
  uploadStatus : Option UploadStatus
  isUploading : Bool
  currentTask : Option String
  processingStatus : Option String
  resultFiles : List ResultFile
  downloadingFiles : List String
  uploadedVideo : Option UploadedVideo
  showPhoneInput : Bool
  dummyProgress : ℚ
deriving DecidableEq

/-- The initial values of the hooks (App.js 8-20). -/
def initialState : AppState :=
  { phoneNumber := "", isLoading := false, selectedFile := none, uploadProgress := 0,
    uploadStatus := none, isUploading := false, currentTask := none,
    processingStatus := none, resultFiles := [], downloadingFiles := [],
    uploadedVideo := none, showPhoneInput := false, dummyProgress := 0 }

/-! ## File intake (`handleFileSelect`, App.js 172-211) -/

/-- The array `validTypes` of App.js, line 181. -/
def validTypes : List String :=
  ["video/mp4", "video/avi", "video/mov", "video/wmv", "video/mkv", "video/quicktime"]

/-- The array `validExtensions` of App.js, line 182. -/
def validExtensions : List String := [".mp4", ".avi", ".mov", ".wmv", ".mkv"]

/-- The constant `maxSize` of App.js, line 196. -/
def maxSize : Nat := 100 * 1024 * 1024

/-- The pieces of `cs` between the occurrences of `sep`, as lists of
characters; there is always at least one piece. -/
def splitChars (sep : Char) : List Char → List (List Char)
  | [] => [[]]
  | c :: cs =>
    if c = sep then [] :: splitChars sep cs
    else
      match splitChars sep cs with
      | [] => [[c]]
      | p :: ps => (c :: p) :: ps

/-- The call `name.split(sep)` for a one-character separator. -/
def split (name : String) (sep : Char) : List String :=
  (splitChars sep name.data).map String.mk

/-- The call `parts.pop()`: the last element of the array, `undefined` (here
`none`) on an empty array. -/
def pop (parts : List String) : Option String := parts.getLast?

/-- The expression `'.' + file.name.split('.').pop().toLowerCase()` of App.js,
line 184. The Unicode lower-casing of the JavaScript runtime is the parameter
`toLowerCase`. `split` never returns an empty array, so the `none` branch
(where the source would throw) is never taken. -/
def fileExtension (toLowerCase : String → String) (file : File) : String :=
  match pop (split file.name '.') with
  | some last => "." ++ toLowerCase last
  | none => "."

/-- The constant `isValidType` of App.js, line 185. -/
def isValidType (toLowerCase : String → String) (file : File) : Bool :=
  validTypes.contains file.type || validExtensions.contains (fileExtension toLowerCase file)

/-- The handler `handleFileSelect` of App.js, lines 172-211, as a transition of
the component state; the argument is `e.target.files[0]`. -/
def handleFileSelect (toLowerCase : String → String) (s : AppState) :
    Option File → AppState
  | some file =>
    -- Clear any previous status
    let s := { s with uploadStatus := none }
    let s := { s with dummyProgress := 0 }
    let s := { s with processingStatus := none }
    if !isValidType toLowerCase file then
      { s with uploadStatus := some ⟨"error",
          "Please select a valid video file (MP4, AVI, MOV, WMV, MKV)"⟩ }
    else if file.size > maxSize then
      { s with uploadStatus := some ⟨"error", "File size must be less than 100MB"⟩ }
    else
      let s := { s with selectedFile := some file }
      { s with uploadStatus := none }
  | none =>
    -- No file selected, clear status
    { s with uploadStatus := none }

/-- The handler `removeSelectedFile` of App.js, lines 290-296. -/
def removeSelectedFile (s : AppState) : AppState :=
  let s := { s with selectedFile := none }
  { s with uploadStatus := none }

/-- The click handler of the button "Upload Another Video" (App.js 477-488). -/
def uploadAnotherVideo (s : AppState) : AppState :=
  let s := { s with processingStatus := none }
  let s := { s with resultFiles := [] }
  let s := { s with currentTask := none }
  let s := { s with selectedFile := none }
  let s := { s with showPhoneInput := false }
  let s := { s with phoneNumber := "" }
  { s with uploadStatus := none }

/-- One state change of the component, as far as `selectedFile` is concerned.
The setter `setSelectedFile` is called at four places of App.js: line 205 in
`handleFileSelect` with the chosen file, and lines 254 (upload finished), 291
(`removeSelectedFile`) and 481 ("Upload Another Video") with `null`. So every
handler other than `handleFileSelect` leaves the field as it is or empties
it. -/
inductive Step (toLowerCase : String → String) : AppState → AppState → Prop where
  | fileSelect (s : AppState) (chosen : Option File) :
      Step toLowerCase s (handleFileSelect toLowerCase s chosen)
  | otherHandler (s t : AppState)
      (h : t.selectedFile = s.selectedFile ∨ t.selectedFile = none) :
      Step toLowerCase s t

/-- The states the component can be in: the initial one and those a state
change leads to. -/
inductive Reachable (toLowerCase : String → String) : AppState → Prop where
  | init : Reachable toLowerCase initialState
  | step (s t : AppState) (hs : Reachable toLowerCase s) (h : Step toLowerCase s t) :
      Reachable toLowerCase t

/-- A 50 MB file `clip.mp4`. -/
def sampleClip : File := { name := "clip.mp4", size := 52428800, type := "video/mp4" }

/-- A 150 MB file `big.mp4`. -/
def oversizedClip : File := { name := "big.mp4", size := 157286400, type := "video/mp4" }

/-- A text file `notes.txt`. -/
def textFile : File := { name := "notes.txt", size := 1024, type := "text/plain" }

/-- A state in which `clip.mp4` is already selected. -/
def stateWithClip : AppState := { initialState with selectedFile := some sampleClip }

/-- ASCII lower-casing, with which `toLowerCase` agrees on ASCII strings. -/
def asciiToLowerCase (s : String) : String := ⟨s.data.map Char.toLower⟩

/-! ## Status polling (`startStatusPolling`, App.js 298-336) -/

/-- One element of `short_clips` in the body of `GET /task/{taskId}`: a file
name, a size in MB and a URL. -/
structure ShortClip where
  filename : String
  size : ℚ
  url : String
deriving DecidableEq

/-- The nested object `data.result`; an absent field is `none`. -/
structure TaskResult where
  status : Option String
  short_clips : Option (List ShortClip)
deriving DecidableEq

/-- The decoded body `data` of a poll response; an absent field is `none`. -/
structure TaskData where
  status : Option String
  result : Option TaskResult
  error : Option String
deriving DecidableEq

/-- What one poll comes back with: `threw` when `fetch` or `response.json()`
throws, or when the body is not an object so that reading its fields throws
(control goes to the `catch` of line 327), otherwise the flag `response.ok`
and the decoded body. -/
inductive PollOutcome where
  | threw
  | response (ok : Bool) (data : TaskData)
deriving DecidableEq

/-- The argument of `shortClips.map` (App.js 310-314). -/
def transformClip (clip : ShortClip) : ResultFile :=
  { filename := clip.filename,
    size := clip.size * 1024 * 1024, -- Convert MB to bytes
    download_url := clip.url }

/-- The text a template literal gives for `data.error`; an absent field
reads `undefined`. -/
def errorText : Option String → String
  | some e => e
  | none => "undefined"

/-- The body of the interval callback of `startStatusPolling` (App.js 300-329)
once the poll has come back: the new component state, and whether
`clearInterval(pollInterval)` was called. -/
def pollCallback (s : AppState) : PollOutcome → AppState × Bool
  | .threw => (s, false)
  | .response ok data =>
    if ok then
      if data.status = some "PROCESSING" then
        ({ s with processingStatus := some "PROCESSING" }, false)
      else if data.result.bind TaskResult.status = some "SUCCESS" then
        let shortClips := (data.result.bind TaskResult.short_clips).getD []
        let transformedClips := shortClips.map transformClip
        let s := { s with resultFiles := transformedClips }
        let s := { s with processingStatus := some "completed" }
        let s := { s with dummyProgress := 100 }
        (s, true)
      else if data.status = some "FAILURE" then
        ({ s with uploadStatus := some ⟨"error", "Processing failed: " ++ errorText data.error⟩ },
          true)
      else (s, false)
    else (s, false)

/-- The period of the poll interval, in ms (App.js 330). -/
def pollPeriod : Nat := 2000

/-- The delay of the timeout that clears the interval, in ms (App.js 335). -/
def pollCeiling : Nat := 600000

/-- The component state together with the two timers armed by
`startStatusPolling`. Times are in ms since the call. Each poll is taken to
come back before the next timer fires. -/
structure PollLoop where
  /-- The component state. -/
  app : AppState
  /-- The time of the last timer event. -/
  now : Nat
  /-- Whether `pollInterval` has not been cleared. -/
  intervalLive : Bool
  /-- When the interval fires next, if it is live. -/
  nextTick : Nat
  /-- Whether the timeout of line 333 has not fired yet. -/
  timeoutPending : Bool
  /-- The times at which a poll was issued, the latest first. -/
  polls : List Nat
deriving DecidableEq

/-- The call `startStatusPolling(taskId)`: the interval is armed to fire every
2000 ms and the timeout to fire after 600000 ms. -/
def startStatusPolling (s : AppState) : PollLoop :=
  { app := s, now := 0, intervalLive := true, nextTick := pollPeriod,
    timeoutPending := true, polls := [] }

/-- Whether the next timer to fire is the interval. When both timers are due at
the same instant, `timeoutFirst` says which one the runtime runs first. -/
def intervalFiresNext (timeoutFirst : Bool) (l : PollLoop) : Bool :=
  l.intervalLive &&
    (!l.timeoutPending || decide (l.nextTick < pollCeiling) ||
      (decide (l.nextTick = pollCeiling) && !timeoutFirst))

/-- The next timer event. If the interval fires, a poll is issued, its outcome
(`outcomes k` for the poll number `k`, counted from 0) is handled by
`pollCallback`, and the interval is re-armed unless it was cleared. Otherwise,
if the timeout is pending it fires and clears the interval. With no timer left
nothing happens. -/
def timerStep (timeoutFirst : Bool) (outcomes : Nat → PollOutcome) (l : PollLoop) :
    PollLoop :=
  if intervalFiresNext timeoutFirst l then
    let r := pollCallback l.app (outcomes l.polls.length)
    { app := r.1, now := l.nextTick, intervalLive := !r.2,
      nextTick := l.nextTick + pollPeriod, timeoutPending := l.timeoutPending,
      polls := l.nextTick :: l.polls }
  else if l.timeoutPending then
    { l with now := pollCeiling, intervalLive := false, timeoutPending := false }
  else l

/-- The loop after `n` timer events. -/
def runTimers (timeoutFirst : Bool) (outcomes : Nat → PollOutcome) :
    Nat → PollLoop → PollLoop
  | 0, l => l
  | n + 1, l => runTimers timeoutFirst outcomes n (timerStep timeoutFirst outcomes l)

/-- The times of the first `n` firings of the interval, the latest first:
`2000 * n`, ..., `4000`, `2000`. -/
def tickTimes : Nat → List Nat
  | 0 => []
  | n + 1 => pollPeriod * (n + 1) :: tickTimes n

/-- The invariant of the two timers: the interval is due at the next multiple of
2000 ms, it is live only while the timeout is pending, and the polls issued so
far are those of the first firings, none later than the timeout. -/
structure LoopInv (l : PollLoop) : Prop where
  tick : l.nextTick = pollPeriod * (l.polls.length + 1)
  live : l.intervalLive = true → l.timeoutPending = true
  count : pollPeriod * l.polls.length ≤ pollCeiling
  shape : l.polls = tickTimes l.polls.length

/-- The outcomes on which the callback leaves the interval running: the request
or the decoding threw, the response is not OK, it is OK with status
`PROCESSING`, or it is OK with neither a nested success nor status
`FAILURE`. -/
def nonTerminal : PollOutcome → Bool
  | .threw => true
  | .response ok data =>
    !ok || decide (data.status = some "PROCESSING") ||
      (!decide (data.result.bind TaskResult.status = some "SUCCESS") &&
        !decide (data.status = some "FAILURE"))

/-- A state in which a job is being processed. -/
def processingState : AppState :=
  { initialState with currentTask := some "task-1", processingStatus := some "PROCESSING" }

/-- The poll response `{status: "PROCESSING"}`. -/
def processingPayload : PollOutcome :=
  .response true { status := some "PROCESSING", result := none, error := none }

/-- The poll response
`{result: {status: "SUCCESS", short_clips: [{filename: "a.mp4", size: 5, url: "/x"}]}}`. -/
def successPayload : PollOutcome :=
  .response true
    { status := none,
      result := some { status := some "SUCCESS",
                       short_clips := some [{ filename := "a.mp4", size := 5, url := "/x" }] },
      error := none }

/-- The poll response `{status: "FAILURE", error: "boom"}`. -/
def failurePayload : PollOutcome :=
  .response true { status := some "FAILURE", result := none, error := some "boom" }

/-- A poll response with status `PROCESSING` that also carries a nested success
result. -/
def processingWithResult : PollOutcome :=
  .response true
    { status := some "PROCESSING",
      result := some { status := some "SUCCESS",
                       short_clips := some [{ filename := "a.mp4", size := 5, url := "/x" }] },
      error := none }

/-- A response that is not OK and carries a nested success result. -/
def notOkWithResult : PollOutcome :=
  .response false
    { status := none,
      result := some { status := some "SUCCESS",
                       short_clips := some [{ filename := "a.mp4", size := 5, url := "/x" }] },
      error := none }

/-- Every poll answers `{status: "PROCESSING"}`. -/
def alwaysProcessing : Nat → PollOutcome := fun _ => processingPayload

/-- Three polls answer `{status: "PROCESSING"}`, the following ones the success
payload. -/
def threeThenSuccess : Nat → PollOutcome :=
  fun k => if k < 3 then processingPayload else successPayload

/-- The first 300 polls answer `{status: "PROCESSING"}`, the following ones the
success payload. -/
def lateSuccess : Nat → PollOutcome :=
  fun k => if k < 300 then processingPayload else successPayload

/-! ## View selection (the conditional chain of App.js 438-689) -/

/-- The four sections the main page can show. -/
inductive View where
  | results
  | processing
  | upload
  | phoneInput
deriving DecidableEq, Repr

/-- The conditional chain of App.js, lines 438, 496 and 534. -/
def view (s : AppState) : View :=
  if s.processingStatus = some "completed" ∧ s.resultFiles.length > 0 then View.results
  else if s.processingStatus = some "PROCESSING" then View.processing
  else if !s.showPhoneInput then View.upload
  else View.phoneInput

/-- Whether a section contains the block that shows `uploadStatus` (App.js
651-655 in the upload section, 682-686 in the phone section; none in the
other two). -/
def showsUploadStatus : View → Bool
  | .results => false
  | .processing => false
  | .upload => true
  | .phoneInput => true

/-! ## Cosmetic progress (`startDummyProgress`, App.js 46-63) -/

/-- The constant `duration` of App.js, line 50: 6 minutes in ms. -/
def duration : Nat := 6 * 60 * 1000

/-- The value `progress` of `updateProgress` (App.js 53-54) when
`Date.now() - startTime` is `elapsed` ms. Numbers are rationals. -/
def progressAt (elapsed : Int) : ℚ := min ((elapsed : ℚ) / (duration : ℚ) * 99) 99

/-- The function `updateProgress` of App.js, lines 52-60: the new state, and
whether `setTimeout(updateProgress, 100)` is called. -/
def updateProgress (s : AppState) (elapsed : Int) : AppState × Bool :=
  let progress := progressAt elapsed
  ({ s with dummyProgress := progress }, decide (progress < 99))

/-- The function `startDummyProgress` of App.js, lines 47-63: the progress is
set to 0 and `updateProgress` is called at once; `elapsed0` is what
`Date.now() - startTime` gives in that first call (0 within the same ms). -/
def startDummyProgress (s : AppState) (elapsed0 : Int) : AppState × Bool :=
  let s := { s with dummyProgress := 0 }
  updateProgress s elapsed0

/-- The nearest integer, a tie going to the even neighbour. -/
def roundHalfEven (q : ℚ) : Int :=
  if q - ⌊q⌋ < 1 / 2 then ⌊q⌋
  else if 1 / 2 < q - ⌊q⌋ then ⌊q⌋ + 1
  else if ⌊q⌋ % 2 = 0 then ⌊q⌋ else ⌊q⌋ + 1

/-- The double nearest to `x` (IEEE 754 binary64, round to nearest, ties to
even): with `2 ^ e ≤ |x| < 2 ^ (e + 1)`, the significand `x / 2 ^ (e - 52)` is
rounded to an integer. The exponent is not bounded, so overflow and subnormal
numbers are outside the model. -/
def roundDouble (x : ℚ) : ℚ :=
  if x = 0 then 0
  else (roundHalfEven (x * 2 ^ (52 - Int.log 2 |x|)) : ℚ) * 2 ^ (Int.log 2 |x| - 52)

/-- The value `progress` of `updateProgress` (App.js 53-54) when the result of
the division and that of the multiplication are each rounded by `fl`, as the
double arithmetic of the source does; `Math.min` and the subtraction of two
integer times are exact. -/
def progressAtWith (fl : ℚ → ℚ) (elapsed : Int) : ℚ :=
  min (fl (fl ((elapsed : ℚ) / (duration : ℚ)) * 99)) 99

/-- The function `updateProgress` of App.js, lines 52-60, with the arithmetic
rounded by `fl`: the new state, and whether `setTimeout(updateProgress, 100)`
is called. -/
def updateProgressWith (fl : ℚ → ℚ) (s : AppState) (elapsed : Int) : AppState × Bool :=
  let progress := progressAtWith fl elapsed
  ({ s with dummyProgress := progress }, decide (progress < 99))

/-- What is assumed of the rounding `fl` of one double operation: it is
monotone on the numbers that are not negative, exact on 0, 1 and 99, and on the range of the values met here its
relative error is at most `ε`, itself at most one millionth. The rounding
`roundDouble` of doubles has all of this with `ε = 2 ^ (-53)`, and exact
arithmetic with `ε = 0`. -/
structure RoundsWithin (fl : ℚ → ℚ) (ε : ℚ) : Prop where
  mono : ∀ x y : ℚ, 0 ≤ x → x ≤ y → fl x ≤ fl y
  zero : fl 0 = 0
  one : fl 1 = 1
  ninetyNine : fl 99 = 99
  eps_nonneg : 0 ≤ ε
  eps_le : ε ≤ 1 / 1000000
  near : ∀ x : ℚ, 1 / 360000 ≤ x → x ≤ 100 → x * (1 - ε) ≤ fl x ∧ fl x ≤ x * (1 + ε)

/-- The callbacks that fire during a job: a tick of the progress timer, with
the time elapsed since its `startDummyProgress`, and a poll that comes back. -/
inductive JobEvent where
  | tick (elapsed : Int)
  | poll (outcome : PollOutcome)
deriving DecidableEq

/-- The component state with the progress timer: `tickPending` says whether a
call of `updateProgress` is scheduled. -/
structure Job where
  app : AppState
  tickPending : Bool
deriving DecidableEq

/-- The effect of one callback. A tick runs `updateProgress` when one is
scheduled; a poll runs `pollCallback` and never touches the progress timer
(the source has no `clearTimeout`). -/
def jobStep (j : Job) : JobEvent → Job
  | .tick elapsed =>
    if j.tickPending then
      { app := (updateProgress j.app elapsed).1, tickPending := (updateProgress j.app elapsed).2 }
    else j
  | .poll outcome => { app := (pollCallback j.app outcome).1, tickPending := j.tickPending }

/-- The effect of a sequence of callbacks, the earliest first. -/
def jobRun (j : Job) (events : List JobEvent) : Job := events.foldl jobStep j

/-- A job right after `startDummyProgress`, called at the instant the job
starts. -/
def startedJob : Job :=
  { app := (startDummyProgress processingState 0).1,
    tickPending := (startDummyProgress processingState 0).2 }

/-- The state of a second job, `task-2`, 100 ms after its start. -/
def secondJobState : AppState :=
  { initialState with currentTask := some "task-2", processingStatus := some "PROCESSING",
                      dummyProgress := progressAt 100 }

/-! ## Downloads (`downloadFile`, App.js 338-400) -/

/-- The update `prev => new Set([...prev, filename])` of line 341. -/
def addToSet (prev : List String) (filename : String) : List String :=
  if filename ∈ prev then prev else prev ++ [filename]

/-- The update of lines 394-398: a copy of `prev` without `filename`. -/
def deleteFromSet (prev : List String) (filename : String) : List String :=
  prev.filter (fun g => decide (g ≠ filename))

/-- How the `try` block of `downloadFile` ends: the response is OK and the
file is handed to the browser; the response is not OK (line 355 throws an
`Error` made of `status` and `statusText`); or `fetch` or `blob` throws an
error with the given message. -/
inductive DownloadOutcome where
  | ok
  | notOk (status statusText : String)
  | threw (message : String)
deriving DecidableEq

/-- Lines 340-344 of `downloadFile`: what it does before awaiting the fetch. -/
def downloadStart (s : AppState) (filename : String) : AppState :=
  let s := { s with downloadingFiles := addToSet s.downloadingFiles filename }
  { s with uploadStatus := some ⟨"info", "Downloading " ++ filename ++ "..."⟩ }

/-- Lines 354-391 of `downloadFile`: the message shown when the `try` block has
ended. -/
def downloadSettle (s : AppState) (filename : String) : DownloadOutcome → AppState
  | .ok =>
    { s with uploadStatus := some ⟨"success", "‚úÖ " ++ filename ++ " downloaded successfully!"⟩ }
  | .notOk status statusText =>
    { s with uploadStatus := some ⟨"error",
        "‚ùå Download failed: " ++ ("Download failed: " ++ status ++ " " ++ statusText)⟩ }
  | .threw message =>
    { s with uploadStatus := some ⟨"error", "‚ùå Download failed: " ++ message⟩ }

/-- The `finally` block of `downloadFile` (lines 392-399). -/
def downloadFinally (s : AppState) (filename : String) : AppState :=
  { s with downloadingFiles := deleteFromSet s.downloadingFiles filename }

/-- The function `downloadFile` of App.js, lines 338-400, run to its end with
no other handler in between. The timeouts that clear the message later
(lines 380 and 389) write `uploadStatus` only. -/
def downloadFile (s : AppState) (downloadUrl filename : String) (outcome : DownloadOutcome) :
    AppState :=
  let _ := downloadUrl
  downloadFinally (downloadSettle (downloadStart s filename) filename outcome) filename

/-! ## Processing kickoff (`handleGetShorts`, App.js 87-170) -/

/-- A network request issued by `handleGetShorts`: the POST to the Make.com
webhook with body `{phone, timestamp, source: 'makereels_app'}`, or the POST to
`/api/start-processing` with body `{phone_number}`. -/
inductive Request where
  | webhook (phone timestamp : String)
  | startProcessing (phone_number : String)
deriving DecidableEq

/-- How the awaited webhook `fetch` settles: it resolves (with any response),
or it rejects and the inner `catch` of line 124 logs the error. -/
inductive WebhookOutcome where
  | resolved
  | rejected
deriving DecidableEq

/-- How the start-processing request ends: `fetch` rejects; the response is
OK and its body decodes to an object with the given `task_id`; the response is
not OK and its body decodes to an object with the given `message`; or
`response.json()` throws on a response with the given `ok` flag. -/
inductive StartOutcome where
  | rejected
  | ok (task_id : Option String)
  | failure (message : Option String)
  | undecodable (ok : Bool)
deriving DecidableEq

/-- The expression `errorData.message || 'Failed to start processing. Please
try again.'` of line 161: an absent or empty message gives the fallback. -/
def messageOrFallback : Option String → String
  | some m => if m = "" then "Failed to start processing. Please try again." else m
  | none => "Failed to start processing. Please try again."

/-- What a call of `handleGetShorts` leaves behind: the component state, the
network requests issued (the earliest first), the lines written with
`console.error`, the argument of `startStatusPolling` when it was called, and
whether a tick of the progress timer is scheduled by this call. -/
structure GetShortsResult where
  app : AppState
  requests : List Request
  logged : List String
  polling : Option (Option String)
  tickPending : Bool
deriving DecidableEq

/-- The handler `handleGetShorts` of App.js, lines 87-170, run to its end.
`timestamp` is `new Date().toISOString()`, `elapsed0` is the elapsed time seen
by the first `updateProgress`, and the two outcomes say how the two requests
end if they are issued. -/
def handleGetShorts (s : AppState) (timestamp : String) (elapsed0 : Int)
    (webhook : WebhookOutcome) (start : StartOutcome) : GetShortsResult :=
  -- Validate phone number
  let phoneValidation := validatePhoneNumber s.phoneNumber
  if !phoneValidation.isValid then
    { app := { s with uploadStatus := some ⟨"error", phoneValidation.message⟩ },
      requests := [], logged := [], polling := none, tickPending := false }
  else if s.uploadedVideo.isNone then
    { app := { s with uploadStatus := some ⟨"error", "No video uploaded"⟩ },
      requests := [], logged := [], polling := none, tickPending := false }
  else
    -- Send phone number to Make.com webhook
    let requests := [Request.webhook s.phoneNumber timestamp]
    let logged :=
      match webhook with
      | .resolved => []
      | .rejected => ["Failed to send to Make.com webhook:"]
    -- Start processing the uploaded video
    let s1 := { s with uploadStatus := some ⟨"info", "Starting video processing..."⟩ }
    let requests := requests ++ [Request.startProcessing s.phoneNumber]
    match start with
    | .ok task_id =>
      let s2 := { s1 with uploadStatus := some ⟨"success",
        "Processing started! We'll notify you when your shorts are ready."⟩ }
      let s2 := { s2 with currentTask := task_id }
      let s2 := { s2 with processingStatus := some "PROCESSING" }
      let s2 := { s2 with showPhoneInput := false }
      let s2 := { s2 with phoneNumber := "" }
      -- Start dummy progress bar
      let r := startDummyProgress s2 elapsed0
      -- Start polling for processing status
      { app := r.1, requests := requests, logged := logged, polling := some task_id,
        tickPending := r.2 }
    | .failure message =>
      { app := { s1 with uploadStatus := some ⟨"error", messageOrFallback message⟩ },
        requests := requests, logged := logged, polling := none, tickPending := false }
    | .rejected =>
      { app := { s1 with uploadStatus := some ⟨"error",
          "Network error. Please check your connection and try again."⟩ },
        requests := requests, logged := logged, polling := none, tickPending := false }
    | .undecodable _ =>
      { app := { s1 with uploadStatus := some ⟨"error",
          "Network error. Please check your connection and try again."⟩ },
        requests := requests, logged := logged, polling := none, tickPending := false }

/-- A state of the contact-capture phase: `clip.mp4` is uploaded and a valid
number is typed. -/
def contactState : AppState :=
  { initialState with
      phoneNumber := "+1 234 567 8901",
      uploadedVideo := some { task_id := "task-1", filename := "stored.mp4",
                              file := some sampleClip },
      showPhoneInput := true }

/-! ## Upload (`handleVideoUpload`, App.js 213-288) -/

/-- The decoded body of a successful `POST /upload`. -/
structure UploadResponse where
  task_id : String
  filename : String
deriving DecidableEq

/-- The function `Math.round`: the nearest integer, a half rounded up. -/
def mathRound (x : ℚ) : Int := ⌊x + 1 / 2⌋

/-- The value `progress` of the progress listener, line 235, when the result of
the division and that of the multiplication are each rounded by `fl`, as a
floating-point unit does. -/
def uploadPercentWith (fl : ℚ → ℚ) (loaded total : Nat) : Int :=
  mathRound (fl (fl ((loaded : ℚ) / (total : ℚ)) * 100))

/-- The value `progress` of the progress listener, line 235, in exact
arithmetic. For `total = 0` the source computes `NaN` or `Infinity`; that case
is outside the model. -/
def uploadPercent (loaded total : Nat) : Int :=
  mathRound ((loaded : ℚ) / (total : ℚ) * 100)

/-- The events of the request created by `handleVideoUpload`: a progress event
of the upload, the `load` event with the HTTP status and the body (`none` when
`JSON.parse` would throw), and the `error` event. -/
inductive XhrEvent where
  | progress (lengthComputable : Bool) (loaded total : Nat)
  | load (status : Nat) (response : Option UploadResponse)
  | error
deriving DecidableEq

/-- The synchronous part of `handleVideoUpload` (App.js 213-231, 277-287): the
new state, and the file captured by the listeners when the request was sent.
`sendThrows` says whether creating or sending the request throws. -/
def handleVideoUpload (s : AppState) (sendThrows : Bool) : AppState × Option File :=
  match s.selectedFile with
  | none =>
    ({ s with uploadStatus := some ⟨"error", "Please select a video file first"⟩ }, none)
  | some file =>
    let s := { s with isUploading := true }
    let s := { s with uploadProgress := 0 }
    let s := { s with uploadStatus := none }
    if sendThrows then
      let s := { s with uploadStatus := some ⟨"error", "Upload failed. Please try again."⟩ }
      ({ s with isUploading := false }, none)
    else (s, some file)

/-- The listeners registered by `handleVideoUpload` (App.js 233-275);
`selectedFile` is the file captured when the handler ran. When `JSON.parse`
throws, the `load` listener stops before its first setter. -/
def xhrListener (selectedFile : File) (s : AppState) : XhrEvent → AppState
  | .progress lengthComputable loaded total =>
    if lengthComputable then { s with uploadProgress := uploadPercent loaded total } else s
  | .load status response =>
    if status = 200 then
      match response with
      | none => s
      | some response =>
        let s := { s with uploadStatus := some ⟨"success", "Video uploaded successfully!"⟩ }
        let video : UploadedVideo :=
          { task_id := response.task_id, filename := response.filename,
            file := some selectedFile }
        let s := { s with uploadedVideo := some video }
        let s := { s with showPhoneInput := true }
        let s := { s with selectedFile := none }
        let s := { s with uploadProgress := 0 }
        { s with isUploading := false }
    else
      let s := { s with uploadStatus := some ⟨"error", "Upload failed. Please try again."⟩ }
      { s with isUploading := false }
  | .error =>
    let s := { s with uploadStatus := some ⟨"error",
      "Upload failed. Please check your connection and try again."⟩ }
    { s with isUploading := false }

/-! ## Contact validation: theorems -/

/-- Every character that survives `replaceNonDigits` is a digit. -/
theorem all_digits_replaceNonDigits (phone : String) :
    (replaceNonDigits phone).data.all isDigitChar = true := by
  simp [replaceNonDigits, List.all_eq_true]

/-- The third check of `validatePhoneNumber` passes on every non-empty cleaned
string. -/
theorem testOnlyDigits_replaceNonDigits (phone : String)
    (h : (replaceNonDigits phone).data.isEmpty = false) :
    testOnlyDigits (replaceNonDigits phone) = true := by
  simp [testOnlyDigits, h, all_digits_replaceNonDigits]

/-- C1: `validatePhoneNumber(s).isValid` is true exactly when the string left
after deleting every character of `s` that is not an ASCII digit has between 7
and 15 characters; `"123"` is rejected and `"+1 234 567 8901"` is accepted. -/
theorem validatePhoneNumber_isValid_iff :
    (∀ s : String, (validatePhoneNumber s).isValid = true ↔
      7 ≤ (s.data.filter isDigitChar).length ∧ (s.data.filter isDigitChar).length ≤ 15) ∧
    (validatePhoneNumber "123").isValid = false ∧
    (validatePhoneNumber "+1 234 567 8901").isValid = true ∧
    ("+1 234 567 8901".data.filter isDigitChar).length = 11 := by
  refine ⟨fun s => ?_, by decide, by decide, by decide⟩
  have hclean : (replaceNonDigits s).data = s.data.filter isDigitChar := rfl
  unfold validatePhoneNumber
  simp only []
  by_cases hempty : (replaceNonDigits s).data.isEmpty = true
  · have hnil : s.data.filter isDigitChar = [] := by
      rw [← hclean]; exact List.isEmpty_iff.mp hempty
    simp [hempty, hnil]
  · have hne : (replaceNonDigits s).data.isEmpty = false := by
      simpa using hempty
    have htest := testOnlyDigits_replaceNonDigits s hne
    by_cases hlen : (replaceNonDigits s).data.length < 7 ∨ 15 < (replaceNonDigits s).data.length
    · have hb : (decide ((replaceNonDigits s).data.length < 7) ||
          decide ((replaceNonDigits s).data.length > 15)) = true := by
        simpa using hlen
      rw [if_neg hempty, if_pos hb]
      rw [hclean] at hlen
      constructor
      · intro h; cases h
      · intro h; omega
    · have hb : ¬ ((decide ((replaceNonDigits s).data.length < 7) ||
          decide ((replaceNonDigits s).data.length > 15)) = true) := by
        simpa using hlen
      rw [if_neg hempty, if_neg hb]
      rw [hclean] at hlen
      simp only [htest, Bool.not_true]
      constructor
      · intro _; omega
      · intro _; rfl

/-! ## File intake: theorems -/

/-- The type check of `handleFileSelect`, spelled out. -/
theorem isValidType_iff (toLowerCase : String → String) (file : File) :
    isValidType toLowerCase file = true ↔
      file.type ∈ ["video/mp4", "video/avi", "video/mov", "video/wmv", "video/mkv",
        "video/quicktime"] ∨
      fileExtension toLowerCase file ∈ [".mp4", ".avi", ".mov", ".wmv", ".mkv"] := by
  simp [isValidType, validTypes, validExtensions]

/-- An accepted file becomes the selection. -/
theorem handleFileSelect_accept (toLowerCase : String → String) (s : AppState) (file : File)
    (htype : isValidType toLowerCase file = true) (hsize : file.size ≤ maxSize) :
    handleFileSelect toLowerCase s (some file) =
      { s with uploadStatus := none, dummyProgress := 0, processingStatus := none,
               selectedFile := some file } := by
  have hs : ¬ file.size > maxSize := by omega
  simp [handleFileSelect, htype, hs]

/-- A file that fails the type check: only the status, the cosmetic progress
and the processing status are written. -/
theorem handleFileSelect_reject_type (toLowerCase : String → String) (s : AppState)
    (file : File) (htype : isValidType toLowerCase file = false) :
    handleFileSelect toLowerCase s (some file) =
      { s with uploadStatus := some ⟨"error",
                 "Please select a valid video file (MP4, AVI, MOV, WMV, MKV)"⟩,
               dummyProgress := 0, processingStatus := none } := by
  simp [handleFileSelect, htype]

/-- A file that passes the type check and is too large: only the status, the
cosmetic progress and the processing status are written. -/
theorem handleFileSelect_reject_size (toLowerCase : String → String) (s : AppState)
    (file : File) (htype : isValidType toLowerCase file = true) (hsize : file.size > maxSize) :
    handleFileSelect toLowerCase s (some file) =
      { s with uploadStatus := some ⟨"error", "File size must be less than 100MB"⟩,
               dummyProgress := 0, processingStatus := none } := by
  simp [handleFileSelect, htype, hsize]

/-- The selection after `handleFileSelect` is the chosen file when it passes
both checks, and the earlier selection otherwise. -/
theorem handleFileSelect_selectedFile (toLowerCase : String → String) (s : AppState)
    (file : File) :
    (handleFileSelect toLowerCase s (some file)).selectedFile =
      if isValidType toLowerCase file = true ∧ file.size ≤ maxSize then some file
      else s.selectedFile := by
  cases htype : isValidType toLowerCase file
  · rw [handleFileSelect_reject_type toLowerCase s file htype]; simp
  · by_cases hsize : file.size ≤ maxSize
    · rw [handleFileSelect_accept toLowerCase s file htype hsize]; simp [hsize]
    · rw [handleFileSelect_reject_size toLowerCase s file htype (by omega)]; simp [hsize]

/-- What the intake checks require of a file. -/
theorem accepted_iff (toLowerCase : String → String) (file : File) :
    (isValidType toLowerCase file = true ∧ file.size ≤ maxSize) ↔
      (file.size ≤ 104857600 ∧
        (file.type ∈ ["video/mp4", "video/avi", "video/mov", "video/wmv", "video/mkv",
            "video/quicktime"] ∨
          fileExtension toLowerCase file ∈ [".mp4", ".avi", ".mov", ".wmv", ".mkv"])) := by
  rw [isValidType_iff]
  have : maxSize = 104857600 := rfl
  rw [this]
  exact and_comm

/-- Every selected file of a reachable state passed both checks. -/
theorem reachable_selectedFile (toLowerCase : String → String) (s : AppState)
    (hs : Reachable toLowerCase s) (file : File) (hsel : s.selectedFile = some file) :
    isValidType toLowerCase file = true ∧ file.size ≤ maxSize := by
  induction hs generalizing file with
  | init => simp [initialState] at hsel
  | step s t _ hstep ih =>
    cases hstep with
    | fileSelect chosen =>
      cases chosen with
      | none =>
        have : (handleFileSelect toLowerCase s none).selectedFile = s.selectedFile := rfl
        exact ih file (this ▸ hsel)
      | some g =>
        rw [handleFileSelect_selectedFile] at hsel
        by_cases hg : isValidType toLowerCase g = true ∧ g.size ≤ maxSize
        · rw [if_pos hg] at hsel
          cases hsel
          exact hg
        · rw [if_neg hg] at hsel
          exact ih file hsel
    | otherHandler _ h =>
      rcases h with h | h
      · exact ih file (h ▸ hsel)
      · rw [h] at hsel; cases hsel

/-- C2: `handleFileSelect` stores the chosen file as `selectedFile` exactly when
its size is at most 104,857,600 bytes and its declared type or its extension is
an allowed one: with both conditions the file is the selection afterwards,
without them the selection is not written, so a file that was not selected
before is the selection afterwards if and only if both hold. A file of exactly
104,857,600 bytes with an allowed type is stored and one of 104,857,601 bytes
is not; and every selected file of a reachable state satisfies both
conditions. -/
theorem handleFileSelect_stores_iff (toLowerCase : String → String) :
    (∀ (s : AppState) (file : File), s.selectedFile ≠ some file →
      ((handleFileSelect toLowerCase s (some file)).selectedFile = some file ↔
        (file.size ≤ 104857600 ∧
          (file.type ∈ ["video/mp4", "video/avi", "video/mov", "video/wmv", "video/mkv",
              "video/quicktime"] ∨
            fileExtension toLowerCase file ∈ [".mp4", ".avi", ".mov", ".wmv", ".mkv"])))) ∧
    (∀ (s : AppState) (file : File),
      (file.size ≤ 104857600 ∧
          (file.type ∈ ["video/mp4", "video/avi", "video/mov", "video/wmv", "video/mkv",
              "video/quicktime"] ∨
            fileExtension toLowerCase file ∈ [".mp4", ".avi", ".mov", ".wmv", ".mkv"])) →
        (handleFileSelect toLowerCase s (some file)).selectedFile = some file) ∧
    (∀ (s : AppState) (file : File),
      ¬ (file.size ≤ 104857600 ∧
          (file.type ∈ ["video/mp4", "video/avi", "video/mov", "video/wmv", "video/mkv",
              "video/quicktime"] ∨
            fileExtension toLowerCase file ∈ [".mp4", ".avi", ".mov", ".wmv", ".mkv"])) →
        (handleFileSelect toLowerCase s (some file)).selectedFile = s.selectedFile) ∧
    (∀ (s : AppState) (file : File), file.type = "video/mp4" →
      (file.size = 104857600 →
        (handleFileSelect toLowerCase s (some file)).selectedFile = some file) ∧
      (file.size = 104857601 →
        (handleFileSelect toLowerCase s (some file)).selectedFile = s.selectedFile)) ∧
    (∀ (s : AppState) (file : File), Reachable toLowerCase s → s.selectedFile = some file →
      (file.size ≤ 104857600 ∧
        (file.type ∈ ["video/mp4", "video/avi", "video/mov", "video/wmv", "video/mkv",
            "video/quicktime"] ∨
          fileExtension toLowerCase file ∈ [".mp4", ".avi", ".mov", ".wmv", ".mkv"]))) := by
  have hmax : maxSize = 104857600 := rfl
  refine ⟨?_, ?_, ?_, ?_, ?_⟩
  · intro s file hne
    rw [handleFileSelect_selectedFile, ← accepted_iff]
    by_cases h : isValidType toLowerCase file = true ∧ file.size ≤ maxSize
    · simp [h]
    · rw [if_neg h]
      exact ⟨fun hsel => absurd hsel hne, fun hacc => absurd hacc h⟩
  · intro s file h
    rw [handleFileSelect_selectedFile, if_pos ((accepted_iff toLowerCase file).mpr h)]
  · intro s file h
    rw [handleFileSelect_selectedFile,
      if_neg (fun hacc => h ((accepted_iff toLowerCase file).mp hacc))]
  · intro s file htype
    have hvalid : isValidType toLowerCase file = true :=
      (isValidType_iff toLowerCase file).mpr (Or.inl (by simp [htype]))
    constructor
    · intro hsize
      rw [handleFileSelect_selectedFile, if_pos ⟨hvalid, by omega⟩]
    · intro hsize
      rw [handleFileSelect_selectedFile, if_neg (fun hacc => by have := hacc.2; omega)]
  · intro s file hs hsel
    exact (accepted_iff toLowerCase file).mp (reachable_selectedFile toLowerCase s hs file hsel)

/-- Instance of C2: from the initial state the 50 MB `clip.mp4` is stored, the
150 MB `big.mp4` and `notes.txt` are not, and the selection of the state
reached by selecting `clip.mp4` satisfies both conditions. -/
theorem handleFileSelect_stores_iff_witness :
    ((handleFileSelect asciiToLowerCase initialState (some sampleClip)).selectedFile =
        some sampleClip ↔
      (sampleClip.size ≤ 104857600 ∧
        (sampleClip.type ∈ ["video/mp4", "video/avi", "video/mov", "video/wmv", "video/mkv",
            "video/quicktime"] ∨
          fileExtension asciiToLowerCase sampleClip ∈
            [".mp4", ".avi", ".mov", ".wmv", ".mkv"]))) ∧
    (handleFileSelect asciiToLowerCase initialState (some sampleClip)).selectedFile =
      some sampleClip ∧
    (handleFileSelect asciiToLowerCase initialState (some oversizedClip)).selectedFile =
      initialState.selectedFile ∧
    (handleFileSelect asciiToLowerCase initialState (some textFile)).selectedFile =
      initialState.selectedFile ∧
    (handleFileSelect asciiToLowerCase initialState
        (some { name := "edge.mp4", size := 104857600, type := "video/mp4" })).selectedFile =
      some { name := "edge.mp4", size := 104857600, type := "video/mp4" } ∧
    (handleFileSelect asciiToLowerCase initialState
        (some { name := "over.mp4", size := 104857601, type := "video/mp4" })).selectedFile =
      initialState.selectedFile ∧
    (sampleClip.size ≤ 104857600 ∧
      (sampleClip.type ∈ ["video/mp4", "video/avi", "video/mov", "video/wmv", "video/mkv",
          "video/quicktime"] ∨
        fileExtension asciiToLowerCase sampleClip ∈
          [".mp4", ".avi", ".mov", ".wmv", ".mkv"])) :=
  ⟨(handleFileSelect_stores_iff asciiToLowerCase).1 initialState sampleClip (by decide),
   (handleFileSelect_stores_iff asciiToLowerCase).2.1 initialState sampleClip (by decide),
   (handleFileSelect_stores_iff asciiToLowerCase).2.2.1 initialState oversizedClip (by decide),
   (handleFileSelect_stores_iff asciiToLowerCase).2.2.1 initialState textFile (by decide),
   ((handleFileSelect_stores_iff asciiToLowerCase).2.2.2.1 initialState
      { name := "edge.mp4", size := 104857600, type := "video/mp4" } rfl).1 rfl,
   ((handleFileSelect_stores_iff asciiToLowerCase).2.2.2.1 initialState
      { name := "over.mp4", size := 104857601, type := "video/mp4" } rfl).2 rfl,
   (handleFileSelect_stores_iff asciiToLowerCase).2.2.2.2
      (handleFileSelect asciiToLowerCase initialState (some sampleClip)) sampleClip
      (Reachable.step _ _ Reachable.init (Step.fileSelect initialState (some sampleClip)))
      (by decide)⟩

/-- C3: the error of `handleFileSelect` names the failed check, the type check
first. A file whose declared type and extension are both outside the allowed
sets gets the type message whatever its size; a file that passes the type
check and is larger than 104,857,600 bytes gets the size message. -/
theorem handleFileSelect_error_message (toLowerCase : String → String) (s : AppState)
    (file : File) :
    ((file.type ∉ ["video/mp4", "video/avi", "video/mov", "video/wmv", "video/mkv",
          "video/quicktime"] ∧
        fileExtension toLowerCase file ∉ [".mp4", ".avi", ".mov", ".wmv", ".mkv"]) →
      (handleFileSelect toLowerCase s (some file)).uploadStatus =
        some ⟨"error", "Please select a valid video file (MP4, AVI, MOV, WMV, MKV)"⟩) ∧
    (((file.type ∈ ["video/mp4", "video/avi", "video/mov", "video/wmv", "video/mkv",
          "video/quicktime"] ∨
        fileExtension toLowerCase file ∈ [".mp4", ".avi", ".mov", ".wmv", ".mkv"]) ∧
        file.size > 104857600) →
      (handleFileSelect toLowerCase s (some file)).uploadStatus =
        some ⟨"error", "File size must be less than 100MB"⟩) := by
  constructor
  · intro h
    have htype : isValidType toLowerCase file = false := by
      cases hv : isValidType toLowerCase file
      · rfl
      · rcases (isValidType_iff toLowerCase file).mp hv with h1 | h2
        · exact absurd h1 h.1
        · exact absurd h2 h.2
    rw [handleFileSelect_reject_type toLowerCase s file htype]
  · intro h
    have htype : isValidType toLowerCase file = true :=
      (isValidType_iff toLowerCase file).mpr h.1
    rw [handleFileSelect_reject_size toLowerCase s file htype h.2]

/-- Instance of C3: `notes.txt` gets the type message and the 150 MB `big.mp4`
gets the size message; a text file of 150 MB gets the type message too. -/
theorem handleFileSelect_error_message_witness :
    (handleFileSelect asciiToLowerCase initialState (some textFile)).uploadStatus =
      some ⟨"error", "Please select a valid video file (MP4, AVI, MOV, WMV, MKV)"⟩ ∧
    (handleFileSelect asciiToLowerCase initialState (some oversizedClip)).uploadStatus =
      some ⟨"error", "File size must be less than 100MB"⟩ ∧
    (handleFileSelect asciiToLowerCase initialState
        (some { name := "notes.txt", size := 157286400, type := "text/plain" })).uploadStatus =
      some ⟨"error", "Please select a valid video file (MP4, AVI, MOV, WMV, MKV)"⟩ :=
  ⟨(handleFileSelect_error_message asciiToLowerCase initialState textFile).1 (by decide),
   (handleFileSelect_error_message asciiToLowerCase initialState oversizedClip).2 (by decide),
   (handleFileSelect_error_message asciiToLowerCase initialState
      { name := "notes.txt", size := 157286400, type := "text/plain" }).1 (by decide)⟩

/-- C4, as stated, fails: with `clip.mp4` already selected (the state reached
from the initial one by selecting it), the rejection of
`notes.txt` (type message) and of the 150 MB `big.mp4` (size message) leaves
`clip.mp4` selected; the selection is not emptied. -/
theorem handleFileSelect_reject_keeps_earlier_file :
    handleFileSelect asciiToLowerCase initialState (some sampleClip) = stateWithClip ∧
    (handleFileSelect asciiToLowerCase stateWithClip (some textFile)).uploadStatus =
      some ⟨"error", "Please select a valid video file (MP4, AVI, MOV, WMV, MKV)"⟩ ∧
    (handleFileSelect asciiToLowerCase stateWithClip (some textFile)).selectedFile =
      some sampleClip ∧
    (handleFileSelect asciiToLowerCase stateWithClip (some textFile)).selectedFile ≠ none ∧
    (handleFileSelect asciiToLowerCase stateWithClip (some oversizedClip)).selectedFile =
      some sampleClip := by
  decide

/-- C4, amended: when `handleFileSelect` rejects a file, the rejected file is
not stored and `selectedFile` is left as it was, so it holds no file when none
was selected before and an earlier selection stays. The handler writes only
`uploadStatus` (an error), `dummyProgress` (0) and `processingStatus` (null). -/
theorem handleFileSelect_reject_frame (toLowerCase : String → String) (s : AppState)
    (file : File)
    (hrej : ¬ (isValidType toLowerCase file = true ∧ file.size ≤ maxSize)) :
    (handleFileSelect toLowerCase s (some file)).selectedFile = s.selectedFile ∧
    (s.selectedFile = none → (handleFileSelect toLowerCase s (some file)).selectedFile = none) ∧
    (∃ message : String, handleFileSelect toLowerCase s (some file) =
      { s with uploadStatus := some ⟨"error", message⟩, dummyProgress := 0,
               processingStatus := none }) := by
  have hsel : (handleFileSelect toLowerCase s (some file)).selectedFile = s.selectedFile := by
    rw [handleFileSelect_selectedFile, if_neg hrej]
  refine ⟨hsel, fun h => hsel.trans h, ?_⟩
  cases htype : isValidType toLowerCase file
  · exact ⟨_, handleFileSelect_reject_type toLowerCase s file htype⟩
  · have hsize : file.size > maxSize := by
      by_contra hle
      exact hrej ⟨htype, by omega⟩
    exact ⟨_, handleFileSelect_reject_size toLowerCase s file htype hsize⟩

/-- Instance of the amended C4: rejecting `notes.txt` from the initial state
leaves no file selected, and rejecting it with `clip.mp4` selected leaves
`clip.mp4` selected. -/
theorem handleFileSelect_reject_frame_witness :
    (handleFileSelect asciiToLowerCase initialState (some textFile)).selectedFile = none ∧
    (handleFileSelect asciiToLowerCase stateWithClip (some textFile)).selectedFile =
      stateWithClip.selectedFile :=
  ⟨(handleFileSelect_reject_frame asciiToLowerCase initialState textFile (by decide)).2.1 rfl,
   (handleFileSelect_reject_frame asciiToLowerCase stateWithClip textFile (by decide)).1⟩

/-! ## One poll: theorems -/

/-- The callback on an OK response that is not `PROCESSING` and carries a nested
success result. -/
theorem pollCallback_success (s : AppState) (data : TaskData)
    (hstatus : data.status ≠ some "PROCESSING")
    (hresult : data.result.bind TaskResult.status = some "SUCCESS") :
    pollCallback s (.response true data) =
      ({ s with resultFiles :=
                  ((data.result.bind TaskResult.short_clips).getD []).map transformClip,
                processingStatus := some "completed", dummyProgress := 100 }, true) := by
  simp [pollCallback, hstatus, hresult]

/-- The callback leaves the interval running exactly on the non-terminal
outcomes. -/
theorem pollCallback_snd (s : AppState) (o : PollOutcome) :
    (pollCallback s o).2 = !nonTerminal o := by
  cases o with
  | threw => rfl
  | response ok data =>
    cases ok
    · simp [pollCallback, nonTerminal]
    · by_cases h1 : data.status = some "PROCESSING"
      · simp [pollCallback, nonTerminal, h1]
      · by_cases h2 : data.result.bind TaskResult.status = some "SUCCESS"
        · simp [pollCallback, nonTerminal, h1, h2]
        · by_cases h3 : data.status = some "FAILURE"
          · simp [pollCallback, nonTerminal, h1, h2, h3]
          · simp [pollCallback, nonTerminal, h1, h2, h3]

/-- A non-terminal outcome leaves a processing job's state as it is. -/
theorem pollCallback_nonTerminal (s : AppState) (o : PollOutcome)
    (hs : s.processingStatus = some "PROCESSING") (ho : nonTerminal o = true) :
    pollCallback s o = (s, false) := by
  cases o with
  | threw => rfl
  | response ok data =>
    cases ok
    · simp [pollCallback]
    · by_cases h1 : data.status = some "PROCESSING"
      · have : ({ s with processingStatus := some "PROCESSING" } : AppState) = s := by
          cases s; simp_all
        simp [pollCallback, h1, this]
      · by_cases h2 : data.result.bind TaskResult.status = some "SUCCESS"
        · simp [nonTerminal, h1, h2] at ho
        · by_cases h3 : data.status = some "FAILURE"
          · simp [nonTerminal, h1, h2, h3] at ho
          · simp [pollCallback, h1, h2, h3]

/-- C5, as stated, fails: a response that carries a nested success result is
ignored when its top-level status is `PROCESSING` or when it is not OK; the
results stay empty, the status stays `PROCESSING` and the progress is not 100. -/
theorem pollCallback_nested_success_ignored :
    pollCallback processingState processingWithResult = (processingState, false) ∧
    pollCallback processingState notOkWithResult = (processingState, false) ∧
    processingState.resultFiles = [] ∧
    processingState.processingStatus ≠ some "completed" ∧
    processingState.dummyProgress ≠ 100 := by
  refine ⟨?_, ?_, rfl, by decide, by decide⟩
  · exact pollCallback_nonTerminal _ _ rfl (by decide)
  · exact pollCallback_nonTerminal _ _ rfl (by decide)

/-- C5, amended: for every OK poll response whose top-level status is not
`PROCESSING` and that carries a nested success result with clip list `L` (the
empty list when `short_clips` is absent), the callback sets `resultFiles` to a
list of the length and order of `L` whose entries have the clip's file name,
its size in MB times 1,048,576 and its URL, sets the status to `completed` and
the cosmetic progress to 100, clears the interval, and writes nothing else. -/
theorem pollCallback_success_results (s : AppState) (data : TaskData) (r : TaskResult)
    (hstatus : data.status ≠ some "PROCESSING") (hr : data.result = some r)
    (hsuccess : r.status = some "SUCCESS") :
    (pollCallback s (.response true data)).1.resultFiles =
      (r.short_clips.getD []).map
        (fun clip => { filename := clip.filename, size := clip.size * 1048576,
                       download_url := clip.url }) ∧
    (pollCallback s (.response true data)).1.resultFiles.length =
      (r.short_clips.getD []).length ∧
    (∀ i : Nat, (pollCallback s (.response true data)).1.resultFiles[i]? =
      ((r.short_clips.getD [])[i]?).map
        (fun clip => { filename := clip.filename, size := clip.size * 1048576,
                       download_url := clip.url })) ∧
    (r.short_clips = none → (pollCallback s (.response true data)).1.resultFiles = []) ∧
    (pollCallback s (.response true data)).1.processingStatus = some "completed" ∧
    (pollCallback s (.response true data)).1.dummyProgress = 100 ∧
    (pollCallback s (.response true data)).2 = true ∧
    (pollCallback s (.response true data)).1 =
      { s with resultFiles := (pollCallback s (.response true data)).1.resultFiles,
               processingStatus := some "completed", dummyProgress := 100 } := by
  have hresult : data.result.bind TaskResult.status = some "SUCCESS" := by
    simp [hr, hsuccess]
  have hclips : data.result.bind TaskResult.short_clips = r.short_clips := by
    simp [hr]
  have hmap : transformClip = fun clip : ShortClip =>
      ({ filename := clip.filename, size := clip.size * 1048576,
         download_url := clip.url } : ResultFile) := by
    funext clip
    simp only [transformClip, ResultFile.mk.injEq, true_and, and_true]
    ring
  rw [pollCallback_success s data hstatus hresult, hclips, hmap]
  refine ⟨rfl, by simp, fun i => by simp [List.getElem?_map], ?_, rfl, rfl, rfl, rfl⟩
  intro hnone
  simp [hnone]

/-- Instance of the amended C5: the clip `{filename: "a.mp4", size: 5, url: "/x"}`
yields one artifact of 5,242,880 bytes, status `completed` and progress 100. -/
theorem pollCallback_success_results_witness :
    (pollCallback processingState successPayload).1.resultFiles =
      [{ filename := "a.mp4", size := 5242880, download_url := "/x" }] ∧
    (pollCallback processingState successPayload).1.processingStatus = some "completed" ∧
    (pollCallback processingState successPayload).1.dummyProgress = 100 := by
  have h := pollCallback_success_results processingState
    { status := none,
      result := some { status := some "SUCCESS",
                       short_clips := some [{ filename := "a.mp4", size := 5, url := "/x" }] },
      error := none }
    { status := some "SUCCESS",
      short_clips := some [{ filename := "a.mp4", size := 5, url := "/x" }] }
    (by decide) rfl rfl
  refine ⟨?_, h.2.2.2.2.1, h.2.2.2.2.2.1⟩
  have h1 := h.1
  simp only [Option.getD_some, List.map_cons, List.map_nil] at h1
  rw [show successPayload = PollOutcome.response true
    { status := none,
      result := some { status := some "SUCCESS",
                       short_clips := some [{ filename := "a.mp4", size := 5, url := "/x" }] },
      error := none } from rfl, h1]
  norm_num

/-- C6, the code at a `FAILURE` response for a processing job: the error is put
in `uploadStatus` and the interval is cleared, but `processingStatus` still
reads `PROCESSING`, so the page stays on the processing section, which does
not show `uploadStatus`. -/
theorem pollCallback_failure_keeps_processing :
    pollCallback processingState failurePayload =
      ({ processingState with uploadStatus := some ⟨"error", "Processing failed: boom"⟩ },
        true) ∧
    (pollCallback processingState failurePayload).1.processingStatus = some "PROCESSING" ∧
    view (pollCallback processingState failurePayload).1 = View.processing ∧
    showsUploadStatus (view (pollCallback processingState failurePayload).1) = false := by
  decide

/-! ## The poll loop: lemmas -/

theorem tickTimes_length (n : Nat) : (tickTimes n).length = n := by
  induction n with
  | zero => rfl
  | succ n ih => simp [tickTimes, ih]

theorem mem_tickTimes (n t : Nat) (h : t ∈ tickTimes n) :
    pollPeriod ≤ t ∧ t ≤ pollPeriod * n ∧ pollPeriod ∣ t := by
  induction n with
  | zero => simp [tickTimes] at h
  | succ n ih =>
    simp only [tickTimes, List.mem_cons] at h
    rcases h with h | h
    · subst h
      refine ⟨?_, le_refl _, Dvd.intro _ rfl⟩
      simp only [pollPeriod]; omega
    · obtain ⟨h1, h2, h3⟩ := ih h
      refine ⟨h1, ?_, h3⟩
      simp only [pollPeriod] at h2 ⊢; omega

theorem runTimers_succ (timeoutFirst : Bool) (outcomes : Nat → PollOutcome) (n : Nat)
    (l : PollLoop) :
    runTimers timeoutFirst outcomes (n + 1) l =
      timerStep timeoutFirst outcomes (runTimers timeoutFirst outcomes n l) := by
  induction n generalizing l with
  | zero => rfl
  | succ n ih =>
    show runTimers timeoutFirst outcomes (n + 1) (timerStep timeoutFirst outcomes l) = _
    rw [ih]
    rfl

theorem runTimers_add (timeoutFirst : Bool) (outcomes : Nat → PollOutcome) (m n : Nat)
    (l : PollLoop) :
    runTimers timeoutFirst outcomes (m + n) l =
      runTimers timeoutFirst outcomes n (runTimers timeoutFirst outcomes m l) := by
  induction n with
  | zero => rfl
  | succ n ih =>
    rw [← Nat.add_assoc, runTimers_succ, runTimers_succ, ih]

/-- The state after the interval has fired. -/
theorem timerStep_fires (timeoutFirst : Bool) (outcomes : Nat → PollOutcome) (l : PollLoop)
    (h : intervalFiresNext timeoutFirst l = true) :
    timerStep timeoutFirst outcomes l =
      { app := (pollCallback l.app (outcomes l.polls.length)).1, now := l.nextTick,
        intervalLive := !(pollCallback l.app (outcomes l.polls.length)).2,
        nextTick := l.nextTick + pollPeriod, timeoutPending := l.timeoutPending,
        polls := l.nextTick :: l.polls } := by
  simp [timerStep, h]

/-- The state after the timeout has fired. -/
theorem timerStep_timeout (timeoutFirst : Bool) (outcomes : Nat → PollOutcome) (l : PollLoop)
    (h : intervalFiresNext timeoutFirst l = false) (hp : l.timeoutPending = true) :
    timerStep timeoutFirst outcomes l =
      { l with now := pollCeiling, intervalLive := false, timeoutPending := false } := by
  simp [timerStep, h, hp]

/-- With no timer left nothing happens. -/
theorem timerStep_idle (timeoutFirst : Bool) (outcomes : Nat → PollOutcome) (l : PollLoop)
    (hl : l.intervalLive = false) (hp : l.timeoutPending = false) :
    timerStep timeoutFirst outcomes l = l := by
  simp [timerStep, intervalFiresNext, hl, hp]

theorem runTimers_idle (timeoutFirst : Bool) (outcomes : Nat → PollOutcome) (n : Nat)
    (l : PollLoop) (hl : l.intervalLive = false) (hp : l.timeoutPending = false) :
    runTimers timeoutFirst outcomes n l = l := by
  induction n with
  | zero => rfl
  | succ n ih => rw [runTimers_succ, ih, timerStep_idle _ _ _ hl hp]

/-- When the interval fires under the invariant, it is not later than the
timeout and fewer than 300 polls were issued before. -/
theorem fires_bound (timeoutFirst : Bool) (l : PollLoop) (hinv : LoopInv l)
    (h : intervalFiresNext timeoutFirst l = true) :
    l.intervalLive = true ∧ l.timeoutPending = true ∧ l.nextTick ≤ pollCeiling ∧
      l.polls.length < 300 := by
  have hlive : l.intervalLive = true := by
    simp only [intervalFiresNext, Bool.and_eq_true] at h
    exact h.1
  have hp := hinv.live hlive
  have hle : l.nextTick ≤ pollCeiling := by
    simp only [intervalFiresNext, hlive, hp, Bool.true_and, Bool.not_true, Bool.false_or,
      Bool.or_eq_true, Bool.and_eq_true, decide_eq_true_eq] at h
    rcases h with h | h
    · omega
    · omega
  refine ⟨hlive, hp, hle, ?_⟩
  have := hinv.tick
  simp only [pollPeriod, pollCeiling] at this hle
  omega

theorem startStatusPolling_inv (s : AppState) : LoopInv (startStatusPolling s) :=
  ⟨rfl, fun _ => rfl, by simp [startStatusPolling, pollPeriod, pollCeiling], rfl⟩

theorem timerStep_inv (timeoutFirst : Bool) (outcomes : Nat → PollOutcome) (l : PollLoop)
    (hinv : LoopInv l) : LoopInv (timerStep timeoutFirst outcomes l) := by
  cases hf : intervalFiresNext timeoutFirst l
  · cases hp : l.timeoutPending
    · have : timerStep timeoutFirst outcomes l = l := by simp [timerStep, hf, hp]
      rw [this]; exact hinv
    · rw [timerStep_timeout _ _ _ hf hp]
      exact ⟨hinv.tick, fun h => (by cases h), hinv.count, hinv.shape⟩
  · obtain ⟨_, hp, hle, _⟩ := fires_bound timeoutFirst l hinv hf
    rw [timerStep_fires _ _ _ hf]
    have htick := hinv.tick
    refine ⟨?_, fun _ => hp, ?_, ?_⟩
    · simp only [List.length_cons, htick, pollPeriod]; omega
    · simp only [List.length_cons]
      rw [← htick]; exact hle
    · simp only [List.length_cons, tickTimes]
      rw [← htick, ← hinv.shape]

theorem runTimers_inv (timeoutFirst : Bool) (outcomes : Nat → PollOutcome) (n : Nat)
    (l : PollLoop) (hinv : LoopInv l) : LoopInv (runTimers timeoutFirst outcomes n l) := by
  induction n with
  | zero => exact hinv
  | succ n ih => rw [runTimers_succ]; exact timerStep_inv _ _ _ ih

/-- While the timeout is pending, every timer event so far was a poll. -/
theorem polls_length_of_pending (timeoutFirst : Bool) (outcomes : Nat → PollOutcome)
    (s : AppState) (n : Nat)
    (hp : (runTimers timeoutFirst outcomes n (startStatusPolling s)).timeoutPending = true) :
    (runTimers timeoutFirst outcomes n (startStatusPolling s)).polls.length = n := by
  induction n with
  | zero => rfl
  | succ n ih =>
    rw [runTimers_succ] at hp ⊢
    cases hf : intervalFiresNext timeoutFirst
        (runTimers timeoutFirst outcomes n (startStatusPolling s))
    · cases hq : (runTimers timeoutFirst outcomes n (startStatusPolling s)).timeoutPending
      · rw [timerStep_idle] at hp
        · rw [hq] at hp; cases hp
        · cases hl : (runTimers timeoutFirst outcomes n (startStatusPolling s)).intervalLive
          · rfl
          · have := (runTimers_inv timeoutFirst outcomes n _ (startStatusPolling_inv s)).live hl
            rw [hq] at this; cases this
        · exact hq
      · rw [timerStep_timeout _ _ _ hf hq] at hp
        cases hp
    · rw [timerStep_fires _ _ _ hf] at hp ⊢
      simp only at hp
      simp only [List.length_cons, ih hp]

/-- After 301 timer events no timer is left. -/
theorem no_timer_after_301 (timeoutFirst : Bool) (outcomes : Nat → PollOutcome)
    (s : AppState) (n : Nat) (hn : 301 ≤ n) :
    (runTimers timeoutFirst outcomes n (startStatusPolling s)).intervalLive = false ∧
    (runTimers timeoutFirst outcomes n (startStatusPolling s)).timeoutPending = false := by
  have hinv := runTimers_inv timeoutFirst outcomes n _ (startStatusPolling_inv s)
  have hp : (runTimers timeoutFirst outcomes n (startStatusPolling s)).timeoutPending = false := by
    cases hq : (runTimers timeoutFirst outcomes n (startStatusPolling s)).timeoutPending
    · rfl
    · have hlen := polls_length_of_pending timeoutFirst outcomes s n hq
      have hc := hinv.count
      rw [hlen] at hc
      simp only [pollPeriod, pollCeiling] at hc
      omega
  refine ⟨?_, hp⟩
  cases hl : (runTimers timeoutFirst outcomes n (startStatusPolling s)).intervalLive
  · rfl
  · have := hinv.live hl
    rw [hp] at this; cases this

/-- Once the interval is cleared, the component state and the list of polls
never change again. -/
theorem runTimers_cleared (timeoutFirst : Bool) (outcomes : Nat → PollOutcome) (n : Nat)
    (l : PollLoop) (hl : l.intervalLive = false) :
    (runTimers timeoutFirst outcomes n l).app = l.app ∧
    (runTimers timeoutFirst outcomes n l).polls = l.polls ∧
    (runTimers timeoutFirst outcomes n l).intervalLive = false := by
  induction n with
  | zero => exact ⟨rfl, rfl, hl⟩
  | succ n ih =>
    obtain ⟨ha, hq, hi⟩ := ih
    rw [runTimers_succ]
    have hf : intervalFiresNext timeoutFirst (runTimers timeoutFirst outcomes n l) = false := by
      simp [intervalFiresNext, hi]
    cases hp : (runTimers timeoutFirst outcomes n l).timeoutPending
    · rw [timerStep_idle _ _ _ hi hp]; exact ⟨ha, hq, hi⟩
    · rw [timerStep_timeout _ _ _ hf hp]; exact ⟨ha, hq, rfl⟩

/-- The loop after `j` polls, all before the timeout and all non-terminal, for
a processing job: the state is untouched and both timers are armed. -/
theorem runTimers_before_ceiling (timeoutFirst : Bool) (outcomes : Nat → PollOutcome) (s : AppState)
    (hs : s.processingStatus = some "PROCESSING") (j : Nat) (hj : j ≤ 299)
    (hpre : ∀ k, k < j → nonTerminal (outcomes k) = true) :
    runTimers timeoutFirst outcomes j (startStatusPolling s) =
      { app := s, now := pollPeriod * j, intervalLive := true,
        nextTick := pollPeriod * (j + 1), timeoutPending := true, polls := tickTimes j } := by
  induction j with
  | zero => rfl
  | succ j ih =>
    rw [runTimers_succ, ih (by omega) (fun k hk => hpre k (by omega))]
    have hf : intervalFiresNext timeoutFirst
        { app := s, now := pollPeriod * j, intervalLive := true,
          nextTick := pollPeriod * (j + 1), timeoutPending := true,
          polls := tickTimes j } = true := by
      simp only [intervalFiresNext, pollPeriod, pollCeiling, Bool.true_and, Bool.not_true,
        Bool.false_or, Bool.or_eq_true, decide_eq_true_eq]
      left; omega
    rw [timerStep_fires _ _ _ hf]
    simp only [tickTimes_length]
    rw [pollCallback_nonTerminal s _ hs (hpre j (by omega))]
    simp only [Bool.not_false, tickTimes, pollPeriod]
    congr 1

/-- The step that issues poll number `n` (counted from 0) after `n` non-terminal
polls, when that poll is not pre-empted by the timeout. -/
theorem runTimers_next_poll (timeoutFirst : Bool) (outcomes : Nat → PollOutcome)
    (s : AppState) (hs : s.processingStatus = some "PROCESSING") (n : Nat)
    (hn : n < 299 ∨ (n = 299 ∧ timeoutFirst = false))
    (hpre : ∀ k, k < n → nonTerminal (outcomes k) = true) :
    runTimers timeoutFirst outcomes (n + 1) (startStatusPolling s) =
      { app := (pollCallback s (outcomes n)).1, now := pollPeriod * (n + 1),
        intervalLive := !(pollCallback s (outcomes n)).2,
        nextTick := pollPeriod * (n + 1) + pollPeriod, timeoutPending := true,
        polls := tickTimes (n + 1) } := by
  rw [runTimers_succ, runTimers_before_ceiling timeoutFirst outcomes s hs n (by omega) hpre]
  have hf : intervalFiresNext timeoutFirst
      { app := s, now := pollPeriod * n, intervalLive := true,
        nextTick := pollPeriod * (n + 1), timeoutPending := true,
        polls := tickTimes n } = true := by
    simp only [intervalFiresNext, pollPeriod, pollCeiling, Bool.true_and, Bool.not_true,
      Bool.false_or, Bool.or_eq_true, Bool.and_eq_true, decide_eq_true_eq,
      Bool.not_eq_true']
    rcases hn with hn | ⟨hn, htf⟩
    · left; omega
    · right; exact ⟨by omega, htf⟩
  rw [timerStep_fires _ _ _ hf]
  simp only [tickTimes_length, tickTimes]

/-- A non-terminal outcome writes at most `processingStatus`, and only the
value `PROCESSING`. -/
theorem pollCallback_nonTerminal_cases (s : AppState) (o : PollOutcome)
    (ho : nonTerminal o = true) :
    pollCallback s o = (s, false) ∨
      pollCallback s o = ({ s with processingStatus := some "PROCESSING" }, false) := by
  cases o with
  | threw => exact Or.inl rfl
  | response ok data =>
    cases ok
    · exact Or.inl rfl
    · by_cases h1 : data.status = some "PROCESSING"
      · right; simp [pollCallback, h1]
      · by_cases h2 : data.result.bind TaskResult.status = some "SUCCESS"
        · simp [nonTerminal, h1, h2] at ho
        · by_cases h3 : data.status = some "FAILURE"
          · simp [nonTerminal, h1, h2, h3] at ho
          · left; simp [pollCallback, h1, h2, h3]

/-- The loop after `j` polls, all before the timeout and all non-terminal, from
any state: the state is the initial one except that `processingStatus` may
have been set to `PROCESSING`, and both timers are armed. -/
theorem runTimers_polls_before_ceiling (timeoutFirst : Bool) (outcomes : Nat → PollOutcome)
    (s : AppState) (j : Nat) (hj : j ≤ 299)
    (hpre : ∀ k, k < j → nonTerminal (outcomes k) = true) :
    ∃ a : AppState, (a = s ∨ a = { s with processingStatus := some "PROCESSING" }) ∧
      runTimers timeoutFirst outcomes j (startStatusPolling s) =
        { app := a, now := pollPeriod * j, intervalLive := true,
          nextTick := pollPeriod * (j + 1), timeoutPending := true, polls := tickTimes j } := by
  induction j with
  | zero => exact ⟨s, Or.inl rfl, rfl⟩
  | succ j ih =>
    obtain ⟨a, ha, hrun⟩ := ih (by omega) (fun k hk => hpre k (by omega))
    have hf : intervalFiresNext timeoutFirst
        { app := a, now := pollPeriod * j, intervalLive := true,
          nextTick := pollPeriod * (j + 1), timeoutPending := true,
          polls := tickTimes j } = true := by
      simp only [intervalFiresNext, pollPeriod, pollCeiling, Bool.true_and, Bool.not_true,
        Bool.false_or, Bool.or_eq_true, decide_eq_true_eq]
      left; omega
    have hshape (b : AppState) (hb : pollCallback a (outcomes j) = (b, false)) :
        runTimers timeoutFirst outcomes (j + 1) (startStatusPolling s) =
          { app := b, now := pollPeriod * (j + 1), intervalLive := true,
            nextTick := pollPeriod * (j + 1 + 1), timeoutPending := true,
            polls := tickTimes (j + 1) } := by
      rw [runTimers_succ, hrun, timerStep_fires _ _ _ hf]
      simp only [tickTimes_length]
      rw [hb]
      simp only [Bool.not_false, tickTimes, pollPeriod]
      congr 1
    rcases pollCallback_nonTerminal_cases a (outcomes j) (hpre j (by omega)) with hb | hb
    · exact ⟨a, ha, hshape a hb⟩
    · refine ⟨{ a with processingStatus := some "PROCESSING" }, Or.inr ?_, hshape _ hb⟩
      rcases ha with ha | ha
      · rw [ha]
      · rw [ha]

/-- The loop after the timeout, for a processing job whose first 300 polls are
all non-terminal: the state is untouched, no timer is left, and 299 or 300
polls were issued according to which timer ran first at 600,000 ms. -/
theorem runTimers_after_ceiling (timeoutFirst : Bool) (outcomes : Nat → PollOutcome)
    (s : AppState) (hs : s.processingStatus = some "PROCESSING")
    (hpre : ∀ k, k < 300 → nonTerminal (outcomes k) = true) :
    runTimers timeoutFirst outcomes 301 (startStatusPolling s) =
      { app := s, now := pollCeiling, intervalLive := false,
        nextTick := if timeoutFirst then 600000 else 602000, timeoutPending := false,
        polls := if timeoutFirst then tickTimes 299 else tickTimes 300 } := by
  cases timeoutFirst
  · -- the interval runs first at 600,000 ms
    rw [runTimers_succ,
      runTimers_next_poll false outcomes s hs 299 (Or.inr ⟨rfl, rfl⟩)
        (fun k hk => hpre k (by omega)),
      pollCallback_nonTerminal s _ hs (hpre 299 (by omega))]
    rw [timerStep_timeout _ _ _ (by simp [intervalFiresNext, pollPeriod, pollCeiling]) rfl]
    simp [pollPeriod]
  · -- the timeout runs first at 600,000 ms
    have h300 : runTimers true outcomes 300 (startStatusPolling s) =
        { app := s, now := pollCeiling, intervalLive := false, nextTick := 600000,
          timeoutPending := false, polls := tickTimes 299 } := by
      rw [runTimers_succ,
        runTimers_before_ceiling true outcomes s hs 299 (le_refl _) (fun k hk => hpre k (by omega)),
        timerStep_timeout _ _ _ (by simp [intervalFiresNext, pollPeriod, pollCeiling]) rfl]
      simp [pollPeriod]
    rw [runTimers_succ, h300, timerStep_idle _ _ _ rfl rfl]
    simp

/-- For a processing job whose first 300 polls are all non-terminal, no timer
event ever changes the component state. -/
theorem runTimers_app_unchanged (timeoutFirst : Bool) (outcomes : Nat → PollOutcome)
    (s : AppState) (hs : s.processingStatus = some "PROCESSING")
    (hpre : ∀ k, k < 300 → nonTerminal (outcomes k) = true) (j : Nat) :
    (runTimers timeoutFirst outcomes j (startStatusPolling s)).app = s := by
  induction j with
  | zero => rfl
  | succ j ih =>
    have hinv := runTimers_inv timeoutFirst outcomes j _ (startStatusPolling_inv s)
    rw [runTimers_succ]
    cases hf : intervalFiresNext timeoutFirst
        (runTimers timeoutFirst outcomes j (startStatusPolling s))
    · cases hp : (runTimers timeoutFirst outcomes j (startStatusPolling s)).timeoutPending
      · have : timerStep timeoutFirst outcomes
            (runTimers timeoutFirst outcomes j (startStatusPolling s)) =
            runTimers timeoutFirst outcomes j (startStatusPolling s) := by
          simp [timerStep, hf, hp]
        rw [this]; exact ih
      · rw [timerStep_timeout _ _ _ hf hp]; exact ih
    · obtain ⟨_, _, _, hlt⟩ := fires_bound timeoutFirst _ hinv hf
      rw [timerStep_fires _ _ _ hf]
      simp only [ih]
      rw [pollCallback_nonTerminal s _ hs (hpre _ hlt)]

/-! ## The poll loop: theorems -/

/-- C7, as stated, fails: with 300 answers `PROCESSING` followed by the success
payload, the timeout clears the interval before the success payload is asked
for; whichever timer runs first at 600,000 ms, the status reads `PROCESSING`
after every number of timer events and is never `completed`. -/
theorem poll_late_success_never_completes :
    (∀ k, k < 300 → lateSuccess k = processingPayload) ∧
    lateSuccess 300 = successPayload ∧
    (∀ (timeoutFirst : Bool) (j : Nat),
      (runTimers timeoutFirst lateSuccess j
        (startStatusPolling processingState)).app.processingStatus = some "PROCESSING") ∧
    (∀ (timeoutFirst : Bool) (j : Nat),
      (runTimers timeoutFirst lateSuccess j
        (startStatusPolling processingState)).app.processingStatus ≠ some "completed") := by
  have hpre : ∀ k, k < 300 → nonTerminal (lateSuccess k) = true := by
    intro k hk
    simp [lateSuccess, hk, processingPayload, nonTerminal]
  refine ⟨fun k hk => by simp [lateSuccess, hk], rfl, ?_, ?_⟩
  · intro timeoutFirst j
    rw [runTimers_app_unchanged timeoutFirst lateSuccess processingState rfl hpre j]
    rfl
  · intro timeoutFirst j
    rw [runTimers_app_unchanged timeoutFirst lateSuccess processingState rfl hpre j]
    decide

/-- C7, amended: for a job that is not completed yet and every sequence of
fewer than 299 non-terminal outcomes followed by a success payload (or exactly
299 when the interval runs before the timeout at 600,000 ms), the status is not
`completed` up to the poll that brings the success payload (the non-terminal
polls write nothing but `PROCESSING` into `processingStatus`), the state is the
completed one after every later timer event, and no poll is issued after that
one. -/
theorem poll_success_completes_once (timeoutFirst : Bool) (outcomes : Nat → PollOutcome)
    (s : AppState) (n : Nat) (data : TaskData)
    (hs : s.processingStatus ≠ some "completed")
    (hn : n < 299 ∨ (n = 299 ∧ timeoutFirst = false))
    (hpre : ∀ k, k < n → nonTerminal (outcomes k) = true)
    (hout : outcomes n = .response true data)
    (hstatus : data.status ≠ some "PROCESSING")
    (hsuccess : data.result.bind TaskResult.status = some "SUCCESS") :
    (∀ j, j ≤ n →
      ((runTimers timeoutFirst outcomes j (startStatusPolling s)).app = s ∨
        (runTimers timeoutFirst outcomes j (startStatusPolling s)).app =
          { s with processingStatus := some "PROCESSING" }) ∧
      (runTimers timeoutFirst outcomes j (startStatusPolling s)).app.processingStatus ≠
        some "completed" ∧
      (runTimers timeoutFirst outcomes j (startStatusPolling s)).polls = tickTimes j) ∧
    (∀ j, n < j →
      (runTimers timeoutFirst outcomes j (startStatusPolling s)).app =
        { s with resultFiles :=
                   ((data.result.bind TaskResult.short_clips).getD []).map transformClip,
                 processingStatus := some "completed", dummyProgress := 100 } ∧
      (runTimers timeoutFirst outcomes j (startStatusPolling s)).app.processingStatus =
        some "completed" ∧
      (runTimers timeoutFirst outcomes j (startStatusPolling s)).polls = tickTimes (n + 1) ∧
      (runTimers timeoutFirst outcomes j (startStatusPolling s)).intervalLive = false) := by
  constructor
  · intro j hj
    obtain ⟨a, ha, hrun⟩ := runTimers_polls_before_ceiling timeoutFirst outcomes s j (by omega)
      (fun k hk => hpre k (by omega))
    rw [hrun]
    refine ⟨ha, ?_, rfl⟩
    rcases ha with ha | ha
    · rw [ha]; exact hs
    · rw [ha]; simp
  · intro j hj
    obtain ⟨m, rfl⟩ : ∃ m, j = (n + 1) + m := ⟨j - (n + 1), by omega⟩
    obtain ⟨a, ha, hrun⟩ := runTimers_polls_before_ceiling timeoutFirst outcomes s n (by omega)
      hpre
    have hf : intervalFiresNext timeoutFirst
        { app := a, now := pollPeriod * n, intervalLive := true,
          nextTick := pollPeriod * (n + 1), timeoutPending := true,
          polls := tickTimes n } = true := by
      simp only [intervalFiresNext, pollPeriod, pollCeiling, Bool.true_and, Bool.not_true,
        Bool.false_or, Bool.or_eq_true, Bool.and_eq_true, decide_eq_true_eq,
        Bool.not_eq_true']
      rcases hn with hn | ⟨hn, htf⟩
      · left; omega
      · right; exact ⟨by omega, htf⟩
    have hstep : runTimers timeoutFirst outcomes (n + 1) (startStatusPolling s) =
        { app :=
            { s with resultFiles :=
                       ((data.result.bind TaskResult.short_clips).getD []).map transformClip,
                     processingStatus := some "completed", dummyProgress := 100 },
          now := pollPeriod * (n + 1), intervalLive := false,
          nextTick := pollPeriod * (n + 1) + pollPeriod, timeoutPending := true,
          polls := tickTimes (n + 1) } := by
      rw [runTimers_succ, hrun, timerStep_fires _ _ _ hf]
      simp only [tickTimes_length]
      rw [hout, pollCallback_success a data hstatus hsuccess]
      rcases ha with ha | ha
      · rw [ha]; rfl
      · rw [ha]; rfl
    have hcleared := runTimers_cleared timeoutFirst outcomes m
      (runTimers timeoutFirst outcomes (n + 1) (startStatusPolling s))
      (by rw [hstep])
    rw [runTimers_add]
    obtain ⟨ha, hq, hi⟩ := hcleared
    rw [ha, hq, hi, hstep]
    exact ⟨rfl, rfl, rfl, rfl⟩

/-- Instance of the amended C7: three answers `PROCESSING`, then the success
payload with the clip `a.mp4` of 5 MB. After three polls the job is still
processing; after the fourth, and after any later timer event, it is
completed with one artifact, and exactly four polls were issued. -/
theorem poll_success_completes_once_witness :
    (runTimers true threeThenSuccess 3
      (startStatusPolling processingState)).app.processingStatus ≠ some "completed" ∧
    (runTimers true threeThenSuccess 4
      (startStatusPolling processingState)).app.processingStatus = some "completed" ∧
    (runTimers true threeThenSuccess 4
      (startStatusPolling processingState)).app.dummyProgress = 100 ∧
    (runTimers true threeThenSuccess 500
      (startStatusPolling processingState)).app.processingStatus = some "completed" ∧
    (runTimers true threeThenSuccess 500
      (startStatusPolling processingState)).polls = [8000, 6000, 4000, 2000] := by
  have h := poll_success_completes_once true threeThenSuccess processingState 3
    { status := none,
      result := some { status := some "SUCCESS",
                       short_clips := some [{ filename := "a.mp4", size := 5, url := "/x" }] },
      error := none }
    (by decide) (Or.inl (by decide)) (by decide) rfl (by decide) rfl
  refine ⟨(h.1 3 (le_refl _)).2.1, (h.2 4 (by decide)).2.1, ?_, (h.2 500 (by decide)).2.1, ?_⟩
  · rw [(h.2 4 (by decide)).1]
  · rw [(h.2 500 (by decide)).2.2.1]
    rfl

/-- C8, as stated, fails at the ceiling: every poll answers `PROCESSING`, yet
the poll of 598,000 ms (when the timeout runs first at 600,000 ms) or the poll
of 600,000 ms (when the interval runs first) is the last one; after it the
timeout clears the interval and the poll of the next 2-second interval is
never issued. -/
theorem poll_processing_last_poll_not_followed :
    (tickTimes 299).head? = some 598000 ∧
    (tickTimes 300).head? = some 600000 ∧
    (∀ n : Nat, (runTimers true alwaysProcessing (301 + n)
      (startStatusPolling processingState)).polls = tickTimes 299) ∧
    (∀ n : Nat, (runTimers false alwaysProcessing (301 + n)
      (startStatusPolling processingState)).polls = tickTimes 300) ∧
    (∀ n : Nat, (runTimers true alwaysProcessing (301 + n)
      (startStatusPolling processingState)).intervalLive = false) ∧
    (∀ n : Nat, (runTimers false alwaysProcessing (301 + n)
      (startStatusPolling processingState)).intervalLive = false) := by
  have hpre : ∀ k, k < 300 → nonTerminal (alwaysProcessing k) = true := fun _ _ => rfl
  have h (tf : Bool) (n : Nat) :
      runTimers tf alwaysProcessing (301 + n) (startStatusPolling processingState) =
        runTimers tf alwaysProcessing 301 (startStatusPolling processingState) := by
    rw [runTimers_add]
    exact runTimers_idle _ _ _ _
      (no_timer_after_301 tf alwaysProcessing processingState 301 (le_refl _)).1
      (no_timer_after_301 tf alwaysProcessing processingState 301 (le_refl _)).2
  refine ⟨rfl, rfl, ?_, ?_, ?_, ?_⟩
  · intro n
    rw [h, runTimers_after_ceiling true alwaysProcessing processingState rfl hpre]
    rfl
  · intro n
    rw [h, runTimers_after_ceiling false alwaysProcessing processingState rfl hpre]
    rfl
  · intro n
    rw [h, runTimers_after_ceiling true alwaysProcessing processingState rfl hpre]
  · intro n
    rw [h, runTimers_after_ceiling false alwaysProcessing processingState rfl hpre]

/-- C8, amended: a poll that throws, or comes back not OK, or comes back with
status `PROCESSING` while the job is processing, leaves every state field
unchanged and does not clear the interval: the interval stays armed for 2000 ms
later, and the next poll is issued then unless the 10-minute ceiling is reached
first (that is, whenever the next interval is before 600,000 ms). -/
theorem poll_nonTerminal_frame (timeoutFirst : Bool) (outcomes : Nat → PollOutcome) :
    (∀ s : AppState, pollCallback s .threw = (s, false)) ∧
    (∀ (s : AppState) (data : TaskData), pollCallback s (.response false data) = (s, false)) ∧
    (∀ (s : AppState) (data : TaskData), s.processingStatus = some "PROCESSING" →
      data.status = some "PROCESSING" → pollCallback s (.response true data) = (s, false)) ∧
    (∀ l : PollLoop, intervalFiresNext timeoutFirst l = true →
      l.app.processingStatus = some "PROCESSING" →
      (outcomes l.polls.length = .threw ∨
        (∃ data, outcomes l.polls.length = .response false data) ∨
        (∃ data, outcomes l.polls.length = .response true data ∧
          data.status = some "PROCESSING")) →
      (timerStep timeoutFirst outcomes l).app = l.app ∧
      (timerStep timeoutFirst outcomes l).polls = l.nextTick :: l.polls ∧
      (timerStep timeoutFirst outcomes l).intervalLive = true ∧
      (timerStep timeoutFirst outcomes l).nextTick = l.nextTick + 2000 ∧
      (l.nextTick + 2000 < 600000 →
        (timerStep timeoutFirst outcomes (timerStep timeoutFirst outcomes l)).polls =
          (l.nextTick + 2000) :: l.nextTick :: l.polls)) := by
  have hthrew : ∀ s : AppState, pollCallback s .threw = (s, false) := fun _ => rfl
  have hnotok : ∀ (s : AppState) (data : TaskData),
      pollCallback s (.response false data) = (s, false) := fun _ _ => rfl
  have hproc : ∀ (s : AppState) (data : TaskData), s.processingStatus = some "PROCESSING" →
      data.status = some "PROCESSING" → pollCallback s (.response true data) = (s, false) := by
    intro s data hs hd
    exact pollCallback_nonTerminal s _ hs (by simp [nonTerminal, hd])
  refine ⟨hthrew, hnotok, hproc, ?_⟩
  intro l hf hs hout
  have hcb : pollCallback l.app (outcomes l.polls.length) = (l.app, false) := by
    rcases hout with h | ⟨data, h⟩ | ⟨data, h, hd⟩
    · rw [h]; exact hthrew _
    · rw [h]; exact hnotok _ _
    · rw [h]; exact hproc _ _ hs hd
  have hstep := timerStep_fires timeoutFirst outcomes l hf
  rw [hcb] at hstep
  refine ⟨by rw [hstep], by rw [hstep], by rw [hstep]; rfl, by rw [hstep]; rfl, ?_⟩
  intro hlt
  have hf2 : intervalFiresNext timeoutFirst (timerStep timeoutFirst outcomes l) = true := by
    rw [hstep]
    simp only [intervalFiresNext, pollPeriod, pollCeiling, Bool.not_false, Bool.true_and,
      Bool.or_eq_true, Bool.and_eq_true, decide_eq_true_eq, Bool.not_eq_true']
    left; right; exact hlt
  rw [timerStep_fires _ _ _ hf2, hstep]
  rfl

/-- Instance of the amended C8: from the start of the loop of a processing job,
a first poll answered `PROCESSING` changes nothing, and the second poll is
issued at 4000 ms. -/
theorem poll_nonTerminal_frame_witness :
    pollCallback processingState processingPayload = (processingState, false) ∧
    (timerStep true alwaysProcessing (startStatusPolling processingState)).app =
      processingState ∧
    (timerStep true alwaysProcessing
      (timerStep true alwaysProcessing (startStatusPolling processingState))).polls =
      [4000, 2000] :=
  ⟨(poll_nonTerminal_frame true alwaysProcessing).2.2.1 processingState
      { status := some "PROCESSING", result := none, error := none } rfl rfl,
   ((poll_nonTerminal_frame true alwaysProcessing).2.2.2 (startStatusPolling processingState)
      (by decide) rfl (Or.inr (Or.inr ⟨_, rfl, rfl⟩))).1,
   ((poll_nonTerminal_frame true alwaysProcessing).2.2.2 (startStatusPolling processingState)
      (by decide) rfl (Or.inr (Or.inr ⟨_, rfl, rfl⟩))).2.2.2.2 (by decide)⟩

/-- C9: polling is bounded. Whatever the polls come back with, after any number
of timer events every poll was issued at most 600,000 ms after
`startStatusPolling`, at most 300 polls were issued, they are those of the
successive multiples of 2000 ms, and after 301 timer events no timer is left
and the list of polls no longer changes. With answers `PROCESSING` only, 299 or
300 polls are issued in all. -/
theorem polling_bounded (timeoutFirst : Bool) (outcomes : Nat → PollOutcome) (s : AppState)
    (n : Nat) :
    (∀ t ∈ (runTimers timeoutFirst outcomes n (startStatusPolling s)).polls, t ≤ 600000) ∧
    (runTimers timeoutFirst outcomes n (startStatusPolling s)).polls.length ≤ 300 ∧
    (runTimers timeoutFirst outcomes n (startStatusPolling s)).polls =
      tickTimes (runTimers timeoutFirst outcomes n (startStatusPolling s)).polls.length ∧
    (runTimers timeoutFirst outcomes (301 + n) (startStatusPolling s)).intervalLive = false ∧
    (runTimers timeoutFirst outcomes (301 + n) (startStatusPolling s)).timeoutPending = false ∧
    (runTimers timeoutFirst outcomes (301 + n) (startStatusPolling s)).polls =
      (runTimers timeoutFirst outcomes 301 (startStatusPolling s)).polls ∧
    (runTimers timeoutFirst alwaysProcessing (301 + n)
      (startStatusPolling processingState)).polls.length =
        if timeoutFirst then 299 else 300 := by
  have hinv := runTimers_inv timeoutFirst outcomes n _ (startStatusPolling_inv s)
  have hlen : (runTimers timeoutFirst outcomes n (startStatusPolling s)).polls.length ≤ 300 := by
    have hc := hinv.count
    simp only [pollPeriod, pollCeiling] at hc
    omega
  have hidle (o : Nat → PollOutcome) (a : AppState) :
      runTimers timeoutFirst o (301 + n) (startStatusPolling a) =
        runTimers timeoutFirst o 301 (startStatusPolling a) := by
    rw [runTimers_add]
    exact runTimers_idle _ _ _ _
      (no_timer_after_301 timeoutFirst o a 301 (le_refl _)).1
      (no_timer_after_301 timeoutFirst o a 301 (le_refl _)).2
  refine ⟨?_, hlen, hinv.shape, ?_, ?_, ?_, ?_⟩
  · intro t ht
    rw [hinv.shape] at ht
    have h2 := (mem_tickTimes _ t ht).2.1
    simp only [pollPeriod] at h2
    omega
  · exact (no_timer_after_301 timeoutFirst outcomes s (301 + n) (by omega)).1
  · exact (no_timer_after_301 timeoutFirst outcomes s (301 + n) (by omega)).2
  · rw [hidle]
  · rw [hidle, runTimers_after_ceiling timeoutFirst alwaysProcessing processingState rfl
      (fun _ _ => rfl)]
    cases timeoutFirst <;> simp [tickTimes_length]

/-- C10, as stated, fails: with answers `PROCESSING` only, after the timeout of
600,000 ms has run (301 timer events, whichever timer runs first at the
ceiling) no timer is left and the status still reads `PROCESSING`; the page
still shows the processing section. -/
theorem ceiling_leaves_status_processing :
    (runTimers true alwaysProcessing 301 (startStatusPolling processingState)).now = 600000 ∧
    (runTimers true alwaysProcessing 301
      (startStatusPolling processingState)).timeoutPending = false ∧
    (runTimers true alwaysProcessing 301
      (startStatusPolling processingState)).app.processingStatus = some "PROCESSING" ∧
    view (runTimers true alwaysProcessing 301 (startStatusPolling processingState)).app =
      View.processing ∧
    (runTimers false alwaysProcessing 301 (startStatusPolling processingState)).now = 600000 ∧
    (runTimers false alwaysProcessing 301
      (startStatusPolling processingState)).timeoutPending = false ∧
    (runTimers false alwaysProcessing 301
      (startStatusPolling processingState)).app.processingStatus = some "PROCESSING" ∧
    view (runTimers false alwaysProcessing 301 (startStatusPolling processingState)).app =
      View.processing := by
  rw [runTimers_after_ceiling true alwaysProcessing processingState rfl (fun _ _ => rfl),
    runTimers_after_ceiling false alwaysProcessing processingState rfl (fun _ _ => rfl)]
  decide

/-- C10, amended: when the 10-minute ceiling is reached the timeout only clears
the interval. It writes no state field, and afterwards no timer event changes
the state or issues a poll; so a job that has had only non-terminal answers
keeps the status `PROCESSING` before and after the ceiling. -/
theorem ceiling_only_stops_polling (timeoutFirst : Bool) (outcomes : Nat → PollOutcome) :
    (∀ l : PollLoop, intervalFiresNext timeoutFirst l = false → l.timeoutPending = true →
      (timerStep timeoutFirst outcomes l).app = l.app ∧
      (timerStep timeoutFirst outcomes l).now = 600000 ∧
      (timerStep timeoutFirst outcomes l).intervalLive = false ∧
      (timerStep timeoutFirst outcomes l).timeoutPending = false ∧
      (∀ n, (runTimers timeoutFirst outcomes n (timerStep timeoutFirst outcomes l)).app =
          l.app ∧
        (runTimers timeoutFirst outcomes n (timerStep timeoutFirst outcomes l)).polls =
          l.polls)) ∧
    (∀ s : AppState, s.processingStatus = some "PROCESSING" →
      (∀ k, k < 300 → nonTerminal (outcomes k) = true) →
      ∀ j, (runTimers timeoutFirst outcomes j (startStatusPolling s)).app = s ∧
        (runTimers timeoutFirst outcomes j (startStatusPolling s)).app.processingStatus =
          some "PROCESSING") := by
  constructor
  · intro l hf hp
    have hstep := timerStep_timeout timeoutFirst outcomes l hf hp
    refine ⟨by rw [hstep], by rw [hstep]; rfl, by rw [hstep], by rw [hstep], ?_⟩
    intro n
    have h := runTimers_cleared timeoutFirst outcomes n (timerStep timeoutFirst outcomes l)
      (by rw [hstep])
    rw [h.1, h.2.1, hstep]
    exact ⟨rfl, rfl⟩
  · intro s hs hpre j
    have h := runTimers_app_unchanged timeoutFirst outcomes s hs hpre j
    rw [h]
    exact ⟨rfl, hs⟩

/-- Instance of the amended C10: for a processing job answered `PROCESSING`
only, when the timeout runs after 299 polls the state is left as it is, and
the status reads `PROCESSING` after 1000 timer events. -/
theorem ceiling_only_stops_polling_witness :
    (timerStep true alwaysProcessing
      { app := processingState, now := 598000, intervalLive := true, nextTick := 600000,
        timeoutPending := true, polls := tickTimes 299 }).app = processingState ∧
    (runTimers true alwaysProcessing 1000
      (startStatusPolling processingState)).app.processingStatus = some "PROCESSING" :=
  ⟨((ceiling_only_stops_polling true alwaysProcessing).1
      { app := processingState, now := 598000, intervalLive := true, nextTick := 600000,
        timeoutPending := true, polls := tickTimes 299 } (by decide) rfl).1,
   ((ceiling_only_stops_polling true alwaysProcessing).2 processingState rfl
      (fun _ _ => rfl) 1000).2⟩


/-! ## Cosmetic progress: theorems -/

theorem duration_eq : (duration : ℚ) = 360000 := by
  norm_num [duration]

/-- The progress value as one fraction. -/
theorem progressAt_eq (t : Int) : progressAt t = min (99 * (t : ℚ) / 360000) 99 := by
  unfold progressAt
  rw [duration_eq]
  congr 1
  ring

theorem progressAt_lt_iff (t : Int) : progressAt t < 99 ↔ t < 360000 := by
  rw [progressAt_eq, min_lt_iff]
  have hcast : (t : ℚ) < 360000 ↔ t < 360000 := by exact_mod_cast Iff.rfl
  constructor
  · rintro (h | h)
    · apply hcast.mp
      rw [div_lt_iff₀ (by norm_num)] at h
      linarith
    · exact absurd h (lt_irrefl _)
  · intro h
    left
    rw [div_lt_iff₀ (by norm_num)]
    have := hcast.mpr h
    linarith

theorem progressAt_mono (t1 t2 : Int) (h : t1 ≤ t2) : progressAt t1 ≤ progressAt t2 := by
  rw [progressAt_eq, progressAt_eq]
  have hcast : (t1 : ℚ) ≤ t2 := by exact_mod_cast h
  apply min_le_min _ (le_refl _)
  apply div_le_div_of_nonneg_right _ (by norm_num)
  linarith

theorem updateProgress_fst (s : AppState) (t : Int) :
    (updateProgress s t).1 = { s with dummyProgress := progressAt t } := rfl

theorem updateProgress_snd (s : AppState) (t : Int) :
    (updateProgress s t).2 = true ↔ t < 360000 := by
  simp only [updateProgress, decide_eq_true_eq]
  exact progressAt_lt_iff t

/-- The progress in exact arithmetic: for every elapsed time `t ≥ 0` in ms,
the exact `updateProgress` sets the cosmetic progress to
`min(99 * t / 360000, 99)` and writes nothing else; the value lies in
`[0, 99]`, is non-decreasing in `t`, is below 99 exactly when `t < 360000` and
is 99 from `t = 360000` on; and the next tick is scheduled exactly when
`t < 360000`. -/
theorem updateProgress_value (s : AppState) (t : Int) (ht : 0 ≤ t) :
    (updateProgress s t).1.dummyProgress = min (99 * (t : ℚ) / 360000) 99 ∧
    (updateProgress s t).1 = { s with dummyProgress := min (99 * (t : ℚ) / 360000) 99 } ∧
    0 ≤ (updateProgress s t).1.dummyProgress ∧
    (updateProgress s t).1.dummyProgress ≤ 99 ∧
    (∀ t2 : Int, t ≤ t2 →
      (updateProgress s t).1.dummyProgress ≤ (updateProgress s t2).1.dummyProgress) ∧
    ((updateProgress s t).1.dummyProgress < 99 ↔ t < 360000) ∧
    (360000 ≤ t → (updateProgress s t).1.dummyProgress = 99) ∧
    ((updateProgress s t).2 = true ↔ t < 360000) ∧
    (360000 ≤ t → (updateProgress s t).2 = false) := by
  have hval : (updateProgress s t).1.dummyProgress = progressAt t := rfl
  have hcast : (0 : ℚ) ≤ t := by exact_mod_cast ht
  refine ⟨?_, ?_, ?_, ?_, ?_, ?_, ?_, updateProgress_snd s t, ?_⟩
  · rw [hval, progressAt_eq]
  · rw [updateProgress_fst, progressAt_eq]
  · rw [hval, progressAt_eq]
    exact le_min (div_nonneg (by linarith) (by norm_num)) (by norm_num)
  · rw [hval, progressAt_eq]
    exact min_le_right _ _
  · intro t2 h
    exact progressAt_mono t t2 h
  · rw [hval]
    exact progressAt_lt_iff t
  · intro h
    rw [hval]
    have hle : progressAt t ≤ 99 := by rw [progressAt_eq]; exact min_le_right _ _
    have hnlt : ¬ progressAt t < 99 := fun hlt => by
      have := (progressAt_lt_iff t).mp hlt
      omega
    exact le_antisymm hle (not_lt.mp hnlt)
  · intro h
    cases hb : (updateProgress s t).2
    · rfl
    · have := (updateProgress_snd s t).mp hb
      omega

/-- In exact arithmetic, after 3 minutes the progress is 49.5 and a tick is
scheduled; after 6 minutes it is 99 and no tick is scheduled. -/
theorem updateProgress_value_witness :
    (updateProgress processingState 180000).1.dummyProgress = 99 / 2 ∧
    (updateProgress processingState 180000).2 = true ∧
    (updateProgress processingState 360000).1.dummyProgress = 99 ∧
    (updateProgress processingState 360000).2 = false := by
  have h1 := updateProgress_value processingState 180000 (by decide)
  have h2 := updateProgress_value processingState 360000 (by decide)
  refine ⟨?_, h1.2.2.2.2.2.2.2.1.mpr (by decide), h2.2.2.2.2.2.2.1 (le_refl _),
    h2.2.2.2.2.2.2.2.2 (le_refl _)⟩
  rw [h1.1]
  norm_num


theorem progressAt_zero : progressAt 0 = 0 := by
  rw [progressAt_eq]
  norm_num

/-- The started job: the state of a processing job with progress 0, and a tick
scheduled. -/
theorem startedJob_eq : startedJob = { app := processingState, tickPending := true } := by
  have h1 : (startDummyProgress processingState 0).1 = processingState := by
    show ({ ({ processingState with dummyProgress := 0 } : AppState) with
      dummyProgress := progressAt 0 } : AppState) = processingState
    rw [progressAt_zero]
    rfl
  have h2 : (startDummyProgress processingState 0).2 = true :=
    (updateProgress_snd _ 0).mpr (by decide)
  simp only [startedJob, h1, h2]

/-- C12, the code on a tick after a success: the job starts with progress 0 and
ticks at 100 ms (progress 0.0275); the poll that comes back with the success
payload forces the progress to 100 and leaves the tick scheduled; the tick at
2100 ms then sets the progress to 0.5775, below 100, with no new job
started. -/
theorem tick_after_success_lowers_progress :
    (jobRun startedJob [.tick 100]).app.dummyProgress = 11 / 400 ∧
    (jobRun startedJob [.tick 100, .poll successPayload]).app.dummyProgress = 100 ∧
    (jobRun startedJob [.tick 100, .poll successPayload]).app.processingStatus =
      some "completed" ∧
    (jobRun startedJob [.tick 100, .poll successPayload]).tickPending = true ∧
    (jobRun startedJob [.tick 100, .poll successPayload, .tick 2100]).app.dummyProgress =
      231 / 400 ∧
    (jobRun startedJob [.tick 100, .poll successPayload, .tick 2100]).app.dummyProgress <
      (jobRun startedJob [.tick 100, .poll successPayload]).app.dummyProgress ∧
    (jobRun startedJob [.tick 100, .poll successPayload, .tick 2100]).app.currentTask =
      startedJob.app.currentTask := by
  have hp1 : (updateProgress processingState 100).2 = true :=
    (updateProgress_snd _ 100).mpr (by decide)
  have h1 : jobRun startedJob [.tick 100] =
      { app := { processingState with dummyProgress := progressAt 100 },
        tickPending := true } := by
    simp only [jobRun, List.foldl, startedJob_eq, jobStep, if_true, hp1]
    rfl
  have h2 : jobRun startedJob [.tick 100, .poll successPayload] =
      { app := { processingState with
                   resultFiles := [transformClip { filename := "a.mp4", size := 5, url := "/x" }],
                   processingStatus := some "completed", dummyProgress := 100 },
        tickPending := true } := by
    have : jobRun startedJob [.tick 100, .poll successPayload] =
        jobStep (jobRun startedJob [.tick 100]) (.poll successPayload) := rfl
    rw [this, h1]
    rfl
  have hp3 (a : AppState) : (updateProgress a 2100).2 = true :=
    (updateProgress_snd _ 2100).mpr (by decide)
  have h3 : (jobRun startedJob [.tick 100, .poll successPayload, .tick 2100]).app =
      { processingState with
          resultFiles := [transformClip { filename := "a.mp4", size := 5, url := "/x" }],
          processingStatus := some "completed", dummyProgress := progressAt 2100 } := by
    have : jobRun startedJob [.tick 100, .poll successPayload, .tick 2100] =
        jobStep (jobRun startedJob [.tick 100, .poll successPayload]) (.tick 2100) := rfl
    rw [this, h2]
    simp only [jobStep, if_true]
    rfl
  have e1 : progressAt 100 = 11 / 400 := by rw [progressAt_eq]; norm_num
  have e3 : progressAt 2100 = 231 / 400 := by rw [progressAt_eq]; norm_num
  refine ⟨?_, ?_, ?_, ?_, ?_, ?_, ?_⟩
  · rw [h1]; exact e1
  · rw [h2]
  · rw [h2]
  · rw [h2]
  · rw [h3]; exact e3
  · rw [h3, h2]
    show progressAt 2100 < 100
    rw [e3]; norm_num
  · rw [h3, startedJob_eq]


/-- C13, as stated, fails: in the state of a second job `task-2`, a tick of the
first job's progress timer (200,000 ms after the first job started) replaces
the progress 0.0275 of the second job by 55, and a poll of the first job that
comes back with the success payload sets the status to `completed` and the
results to the first job's clip, while `currentTask` still reads `task-2`. -/
theorem stale_callbacks_change_second_job :
    secondJobState.currentTask = some "task-2" ∧
    secondJobState.dummyProgress = 11 / 400 ∧
    (updateProgress secondJobState 200000).1.dummyProgress = 55 ∧
    (updateProgress secondJobState 200000).1.currentTask = some "task-2" ∧
    (pollCallback secondJobState successPayload).1.processingStatus = some "completed" ∧
    (pollCallback secondJobState successPayload).1.resultFiles =
      [transformClip { filename := "a.mp4", size := 5, url := "/x" }] ∧
    (pollCallback secondJobState successPayload).1.dummyProgress = 100 ∧
    (pollCallback secondJobState successPayload).1.currentTask = some "task-2" := by
  refine ⟨rfl, ?_, ?_, rfl, rfl, rfl, rfl, rfl⟩
  · show progressAt 100 = 11 / 400
    rw [progressAt_eq]; norm_num
  · show progressAt 200000 = 55
    rw [progressAt_eq]; norm_num

/-- C13, amended: no tick of the progress timer and no poll callback checks
which job is current. Each writes what it writes for its own job whatever
`currentTask` holds, and leaves `currentTask` as it is: a tick sets the
progress to the value of its own elapsed time, and a poll that comes back with
a success payload sets status, results and progress. So a callback of an
earlier job that still fires does change the state of the current job. -/
theorem callbacks_ignore_current_task (s : AppState) (current : Option String) :
    (∀ elapsed : Int,
      updateProgress { s with currentTask := current } elapsed =
        ({ (updateProgress s elapsed).1 with currentTask := current },
          (updateProgress s elapsed).2)) ∧
    (∀ outcome : PollOutcome,
      pollCallback { s with currentTask := current } outcome =
        ({ (pollCallback s outcome).1 with currentTask := current },
          (pollCallback s outcome).2)) ∧
    (∀ elapsed : Int,
      (updateProgress { s with currentTask := current } elapsed).1.dummyProgress =
        progressAt elapsed) ∧
    (∀ data : TaskData, data.status ≠ some "PROCESSING" →
      data.result.bind TaskResult.status = some "SUCCESS" →
      (pollCallback { s with currentTask := current } (.response true data)).1 =
        { s with currentTask := current,
                 resultFiles :=
                   ((data.result.bind TaskResult.short_clips).getD []).map transformClip,
                 processingStatus := some "completed", dummyProgress := 100 }) := by
  refine ⟨fun _ => rfl, ?_, fun _ => rfl, ?_⟩
  · intro outcome
    cases outcome with
    | threw => rfl
    | response ok data =>
      cases ok
      · rfl
      · by_cases h1 : data.status = some "PROCESSING"
        · simp [pollCallback, h1]
        · by_cases h2 : data.result.bind TaskResult.status = some "SUCCESS"
          · simp [pollCallback, h1, h2]
          · by_cases h3 : data.status = some "FAILURE"
            · simp [pollCallback, h1, h2, h3]
            · simp [pollCallback, h1, h2, h3]
  · intro data hstatus hsuccess
    rw [pollCallback_success _ data hstatus hsuccess]

/-- Instance of the amended C13: with `task-2` current, the success payload of
an earlier job still completes the job shown. -/
theorem callbacks_ignore_current_task_witness :
    (pollCallback { processingState with currentTask := some "task-2" }
      successPayload).1.processingStatus = some "completed" ∧
    (pollCallback { processingState with currentTask := some "task-2" }
      successPayload).1.currentTask = some "task-2" := by
  have h := (callbacks_ignore_current_task processingState (some "task-2")).2.2.2
    { status := none,
      result := some { status := some "SUCCESS",
                       short_clips := some [{ filename := "a.mp4", size := 5, url := "/x" }] },
      error := none }
    (by decide) rfl
  have hp : successPayload = PollOutcome.response true
    { status := none,
      result := some { status := some "SUCCESS",
                       short_clips := some [{ filename := "a.mp4", size := 5, url := "/x" }] },
      error := none } := rfl
  rw [hp, h]
  exact ⟨rfl, rfl⟩

/-! ## Downloads: theorems -/

theorem mem_deleteFromSet (prev : List String) (filename g : String) :
    g ∈ deleteFromSet prev filename ↔ g ∈ prev ∧ g ≠ filename := by
  simp [deleteFromSet]

theorem mem_addToSet (prev : List String) (filename g : String) :
    g ∈ addToSet prev filename ↔ g ∈ prev ∨ g = filename := by
  unfold addToSet
  split
  · constructor
    · exact Or.inl
    · rintro (h | h)
      · exact h
      · subst h; assumption
  · simp

theorem downloadFile_downloadingFiles (s : AppState) (downloadUrl filename : String)
    (outcome : DownloadOutcome) :
    (downloadFile s downloadUrl filename outcome).downloadingFiles =
      deleteFromSet (addToSet s.downloadingFiles filename) filename := by
  cases outcome <;> rfl

/-- C14: for every downloading set `S` and file name `f`, once
`downloadFile(url, f)` has finished (the fetch succeeded, came back not OK, or
threw) the downloading set is `S` without `f`: `f` is not a member and every
other file name is a member exactly when it was one in `S`. The same holds for
the `finally` block alone, whatever state it runs in. -/
theorem downloadFile_removes_filename (s : AppState) (downloadUrl f : String)
    (outcome : DownloadOutcome) :
    f ∉ (downloadFile s downloadUrl f outcome).downloadingFiles ∧
    (∀ g : String, g ≠ f →
      (g ∈ (downloadFile s downloadUrl f outcome).downloadingFiles ↔
        g ∈ s.downloadingFiles)) ∧
    (downloadFile s downloadUrl f outcome).downloadingFiles =
      s.downloadingFiles.filter (fun g => decide (g ≠ f)) ∧
    f ∉ (downloadFinally s f).downloadingFiles ∧
    (∀ g : String, g ≠ f →
      (g ∈ (downloadFinally s f).downloadingFiles ↔ g ∈ s.downloadingFiles)) := by
  rw [downloadFile_downloadingFiles]
  refine ⟨?_, ?_, ?_, ?_, ?_⟩
  · intro h
    exact ((mem_deleteFromSet _ _ _).mp h).2 rfl
  · intro g hg
    rw [mem_deleteFromSet, mem_addToSet]
    constructor
    · rintro ⟨h | h, _⟩
      · exact h
      · exact absurd h hg
    · intro h
      exact ⟨Or.inl h, hg⟩
  · unfold addToSet deleteFromSet
    split
    · rfl
    · simp [List.filter_append]
  · intro h
    exact ((mem_deleteFromSet _ _ _).mp h).2 rfl
  · intro g hg
    show g ∈ deleteFromSet s.downloadingFiles f ↔ _
    rw [mem_deleteFromSet]
    exact ⟨fun h => h.1, fun h => ⟨h, hg⟩⟩

/-- Instance of C14: with `b.mp4` downloading, a download of `a.mp4` that comes
back 404 leaves exactly `b.mp4` in the set. -/
theorem downloadFile_removes_filename_witness :
    (downloadFile { initialState with downloadingFiles := ["b.mp4"] } "/x" "a.mp4"
      (.notOk "404" "Not Found")).downloadingFiles = ["b.mp4"] ∧
    ("b.mp4" ∈ (downloadFile { initialState with downloadingFiles := ["b.mp4"] } "/x" "a.mp4"
      (.notOk "404" "Not Found")).downloadingFiles ↔
        "b.mp4" ∈ ({ initialState with downloadingFiles := ["b.mp4"] } : AppState).downloadingFiles) :=
  ⟨by decide,
   (downloadFile_removes_filename { initialState with downloadingFiles := ["b.mp4"] } "/x"
      "a.mp4" (.notOk "404" "Not Found")).2.1 "b.mp4" (by decide)⟩


/-! ## Processing kickoff: theorems -/

/-- The handler on a contact that fails validation. -/
theorem handleGetShorts_invalid (s : AppState) (timestamp : String) (elapsed0 : Int)
    (webhook : WebhookOutcome) (start : StartOutcome)
    (h : (validatePhoneNumber s.phoneNumber).isValid = false) :
    handleGetShorts s timestamp elapsed0 webhook start =
      { app :=
          { s with uploadStatus := some ⟨"error", (validatePhoneNumber s.phoneNumber).message⟩ },
        requests := [], logged := [], polling := none, tickPending := false } := by
  simp [handleGetShorts, h]

/-- The handler once both checks have passed. -/
theorem handleGetShorts_valid (s : AppState) (timestamp : String) (elapsed0 : Int)
    (webhook : WebhookOutcome) (start : StartOutcome)
    (hvalid : (validatePhoneNumber s.phoneNumber).isValid = true)
    (hvideo : s.uploadedVideo.isSome = true) :
    (handleGetShorts s timestamp elapsed0 webhook start).requests =
      [Request.webhook s.phoneNumber timestamp, Request.startProcessing s.phoneNumber] ∧
    (handleGetShorts s timestamp elapsed0 webhook start).logged =
      (match webhook with
        | .resolved => []
        | .rejected => ["Failed to send to Make.com webhook:"]) ∧
    (handleGetShorts s timestamp elapsed0 webhook start).app =
      (match start with
        | .ok task_id =>
          { s with
            uploadStatus := some ⟨"success",
              "Processing started! We'll notify you when your shorts are ready."⟩,
            currentTask := task_id, processingStatus := some "PROCESSING",
            showPhoneInput := false, phoneNumber := "",
            dummyProgress := progressAt elapsed0 }
        | .failure message =>
          { s with uploadStatus := some ⟨"error", messageOrFallback message⟩ }
        | .rejected =>
          { s with
            uploadStatus := some ⟨"error",
              "Network error. Please check your connection and try again."⟩ }
        | .undecodable _ =>
          { s with
            uploadStatus := some ⟨"error",
              "Network error. Please check your connection and try again."⟩ }) ∧
    (handleGetShorts s timestamp elapsed0 webhook start).polling =
      (match start with
        | .ok task_id => some task_id
        | _ => none) ∧
    (handleGetShorts s timestamp elapsed0 webhook start).tickPending =
      (match start with
        | .ok _ => decide (progressAt elapsed0 < 99)
        | _ => false) := by
  have hnone : s.uploadedVideo.isNone = false := by
    cases hv : s.uploadedVideo
    · rw [hv] at hvideo; cases hvideo
    · rfl
  cases start <;>
    simp [handleGetShorts, hvalid, hnone, startDummyProgress, updateProgress]

/-- C15: for every contact string that fails `validatePhoneNumber`,
`handleGetShorts` sets `uploadStatus` to an error carrying the validator's
message, issues no network request (neither the webhook nor start-processing),
starts no poll loop and no progress timer, and leaves every other state field
unchanged. -/
theorem handleGetShorts_invalid_contact (s : AppState) (timestamp : String) (elapsed0 : Int)
    (webhook : WebhookOutcome) (start : StartOutcome)
    (h : (validatePhoneNumber s.phoneNumber).isValid = false) :
    (handleGetShorts s timestamp elapsed0 webhook start).app =
      { s with uploadStatus := some ⟨"error", (validatePhoneNumber s.phoneNumber).message⟩ } ∧
    (handleGetShorts s timestamp elapsed0 webhook start).requests = [] ∧
    (handleGetShorts s timestamp elapsed0 webhook start).polling = none ∧
    (handleGetShorts s timestamp elapsed0 webhook start).tickPending = false := by
  rw [handleGetShorts_invalid s timestamp elapsed0 webhook start h]
  exact ⟨rfl, rfl, rfl, rfl⟩

/-- Instance of C15: with the contact `123`, the message is the one of the
length check and no request is issued, even when the server would accept. -/
theorem handleGetShorts_invalid_contact_witness :
    (handleGetShorts { contactState with phoneNumber := "123" } "2025-01-01T00:00:00.000Z" 0
      .resolved (.ok (some "task-1"))).app.uploadStatus =
        some ⟨"error", "Please enter a valid phone number (7-15 digits)"⟩ ∧
    (handleGetShorts { contactState with phoneNumber := "123" } "2025-01-01T00:00:00.000Z" 0
      .resolved (.ok (some "task-1"))).requests = [] := by
  have h := handleGetShorts_invalid_contact { contactState with phoneNumber := "123" }
    "2025-01-01T00:00:00.000Z" 0 .resolved (.ok (some "task-1")) (by decide)
  refine ⟨?_, h.2.1⟩
  rw [h.1]
  decide

/-- C16: for every valid contact and uploaded video, when the webhook request
fails (its `fetch` rejects), `handleGetShorts` still issues the
start-processing request with the same body, right after the webhook request,
and ends in the same state, with the same poll loop and progress timer, as when
the webhook request succeeds, however the start-processing request ends; the
failure is only logged. -/
theorem handleGetShorts_webhook_failure (s : AppState) (timestamp : String) (elapsed0 : Int)
    (start : StartOutcome)
    (hvalid : (validatePhoneNumber s.phoneNumber).isValid = true)
    (hvideo : s.uploadedVideo.isSome = true) :
    (handleGetShorts s timestamp elapsed0 .rejected start).requests =
      [Request.webhook s.phoneNumber timestamp, Request.startProcessing s.phoneNumber] ∧
    (handleGetShorts s timestamp elapsed0 .rejected start).requests =
      (handleGetShorts s timestamp elapsed0 .resolved start).requests ∧
    (handleGetShorts s timestamp elapsed0 .rejected start).app =
      (handleGetShorts s timestamp elapsed0 .resolved start).app ∧
    (handleGetShorts s timestamp elapsed0 .rejected start).polling =
      (handleGetShorts s timestamp elapsed0 .resolved start).polling ∧
    (handleGetShorts s timestamp elapsed0 .rejected start).tickPending =
      (handleGetShorts s timestamp elapsed0 .resolved start).tickPending ∧
    (handleGetShorts s timestamp elapsed0 .rejected start).logged =
      ["Failed to send to Make.com webhook:"] ∧
    (handleGetShorts s timestamp elapsed0 .resolved start).logged = [] := by
  obtain ⟨hq1, hl1, ha1, hp1, ht1⟩ :=
    handleGetShorts_valid s timestamp elapsed0 .rejected start hvalid hvideo
  obtain ⟨hq2, hl2, ha2, hp2, ht2⟩ :=
    handleGetShorts_valid s timestamp elapsed0 .resolved start hvalid hvideo
  exact ⟨hq1, hq1.trans hq2.symm, ha1.trans ha2.symm, hp1.trans hp2.symm, ht1.trans ht2.symm,
    hl1, hl2⟩

/-- Instance of C16: in the contact-capture state, with the webhook down and
the server answering with `task-1`, the job is started as usual. -/
theorem handleGetShorts_webhook_failure_witness :
    (handleGetShorts contactState "2025-01-01T00:00:00.000Z" 0 .rejected
      (.ok (some "task-1"))).requests =
        [Request.webhook "+1 234 567 8901" "2025-01-01T00:00:00.000Z",
          Request.startProcessing "+1 234 567 8901"] ∧
    (handleGetShorts contactState "2025-01-01T00:00:00.000Z" 0 .rejected
      (.ok (some "task-1"))).app =
        (handleGetShorts contactState "2025-01-01T00:00:00.000Z" 0 .resolved
          (.ok (some "task-1"))).app :=
  ⟨(handleGetShorts_webhook_failure contactState "2025-01-01T00:00:00.000Z" 0
      (.ok (some "task-1")) (by decide) rfl).1,
   (handleGetShorts_webhook_failure contactState "2025-01-01T00:00:00.000Z" 0
      (.ok (some "task-1")) (by decide) rfl).2.2.1⟩


/-- C17: when the start-processing request succeeds with task identifier `t`
(for a valid contact and an uploaded video, without which it is not issued),
`handleGetShorts` records `t` as the current task, sets the status to
`PROCESSING`, leaves the contact-capture phase (the page shows the processing
section), empties the contact field, restarts the cosmetic progress (it is 0
when the first update runs in the millisecond of the start, and the value of
the elapsed time in general, with the timer armed) and starts the poll loop
for `t`, both timers armed. Nothing else is written but the success message. -/
theorem handleGetShorts_success (s : AppState) (timestamp : String) (elapsed0 : Int)
    (webhook : WebhookOutcome) (t : String)
    (hvalid : (validatePhoneNumber s.phoneNumber).isValid = true)
    (hvideo : s.uploadedVideo.isSome = true) :
    (handleGetShorts s timestamp elapsed0 webhook (.ok (some t))).app.currentTask = some t ∧
    (handleGetShorts s timestamp elapsed0 webhook (.ok (some t))).app.processingStatus =
      some "PROCESSING" ∧
    (handleGetShorts s timestamp elapsed0 webhook (.ok (some t))).app.showPhoneInput = false ∧
    view (handleGetShorts s timestamp elapsed0 webhook (.ok (some t))).app = View.processing ∧
    (handleGetShorts s timestamp elapsed0 webhook (.ok (some t))).app.phoneNumber = "" ∧
    (handleGetShorts s timestamp elapsed0 webhook (.ok (some t))).app.dummyProgress =
      progressAt elapsed0 ∧
    (handleGetShorts s timestamp 0 webhook (.ok (some t))).app.dummyProgress = 0 ∧
    (handleGetShorts s timestamp 0 webhook (.ok (some t))).tickPending = true ∧
    (handleGetShorts s timestamp elapsed0 webhook (.ok (some t))).polling = some (some t) ∧
    (startStatusPolling
      (handleGetShorts s timestamp elapsed0 webhook (.ok (some t))).app).intervalLive = true ∧
    (startStatusPolling
      (handleGetShorts s timestamp elapsed0 webhook (.ok (some t))).app).timeoutPending = true ∧
    (handleGetShorts s timestamp elapsed0 webhook (.ok (some t))).app =
      { s with
        uploadStatus := some ⟨"success",
          "Processing started! We'll notify you when your shorts are ready."⟩,
        currentTask := some t, processingStatus := some "PROCESSING",
        showPhoneInput := false, phoneNumber := "",
        dummyProgress := progressAt elapsed0 } := by
  obtain ⟨_, _, ha, hp, _⟩ :=
    handleGetShorts_valid s timestamp elapsed0 webhook (.ok (some t)) hvalid hvideo
  obtain ⟨_, _, ha0, _, ht0⟩ :=
    handleGetShorts_valid s timestamp 0 webhook (.ok (some t)) hvalid hvideo
  simp only at ha hp ha0 ht0
  refine ⟨by rw [ha], by rw [ha], by rw [ha], ?_, by rw [ha], by rw [ha], ?_, ?_, hp, rfl, rfl,
    ha⟩
  · rw [ha]
    simp [view]
  · rw [ha0]
    exact progressAt_zero
  · rw [ht0, progressAt_zero]
    norm_num

/-- Instance of C17: in the contact-capture state the server answers with
`task-1`. -/
theorem handleGetShorts_success_witness :
    (handleGetShorts contactState "2025-01-01T00:00:00.000Z" 0 .resolved
      (.ok (some "task-1"))).app.currentTask = some "task-1" ∧
    (handleGetShorts contactState "2025-01-01T00:00:00.000Z" 0 .resolved
      (.ok (some "task-1"))).app.phoneNumber = "" ∧
    (handleGetShorts contactState "2025-01-01T00:00:00.000Z" 0 .resolved
      (.ok (some "task-1"))).app.dummyProgress = 0 ∧
    (handleGetShorts contactState "2025-01-01T00:00:00.000Z" 0 .resolved
      (.ok (some "task-1"))).polling = some (some "task-1") :=
  ⟨(handleGetShorts_success contactState "2025-01-01T00:00:00.000Z" 0 .resolved "task-1"
      (by decide) rfl).1,
   (handleGetShorts_success contactState "2025-01-01T00:00:00.000Z" 0 .resolved "task-1"
      (by decide) rfl).2.2.2.2.1,
   (handleGetShorts_success contactState "2025-01-01T00:00:00.000Z" 0 .resolved "task-1"
      (by decide) rfl).2.2.2.2.2.2.1,
   (handleGetShorts_success contactState "2025-01-01T00:00:00.000Z" 0 .resolved "task-1"
      (by decide) rfl).2.2.2.2.2.2.2.2.1⟩

/-! ## Upload: theorems -/

/-- C18, amended: when the upload response has status 200 and its body carries
the task identifier `t` and the stored file name `n`, the `load` listener records the
uploaded video as `(t, n, file)`, where `file` is the file that was selected
when the upload was started, enters the contact-capture phase, clears the
selected file, resets the upload progress to 0 and ends the uploading state;
besides these it writes only the success message. -/
theorem upload_success_recorded (before : AppState) (file : File)
    (hsel : before.selectedFile = some file) (s : AppState) (t n : String) :
    (handleVideoUpload before false).2 = some file ∧
    (xhrListener file s (.load 200 (some ⟨t, n⟩))).uploadedVideo =
      some { task_id := t, filename := n, file := some file } ∧
    (xhrListener file s (.load 200 (some ⟨t, n⟩))).showPhoneInput = true ∧
    (s.processingStatus = none →
      view (xhrListener file s (.load 200 (some ⟨t, n⟩))) = View.phoneInput) ∧
    (xhrListener file s (.load 200 (some ⟨t, n⟩))).selectedFile = none ∧
    (xhrListener file s (.load 200 (some ⟨t, n⟩))).uploadProgress = 0 ∧
    (xhrListener file s (.load 200 (some ⟨t, n⟩))).isUploading = false ∧
    xhrListener file s (.load 200 (some ⟨t, n⟩)) =
      { s with
        uploadStatus := some ⟨"success", "Video uploaded successfully!"⟩,
        uploadedVideo := some { task_id := t, filename := n, file := some file },
        showPhoneInput := true, selectedFile := none, uploadProgress := 0,
        isUploading := false } := by
  refine ⟨?_, rfl, rfl, ?_, rfl, rfl, rfl, rfl⟩
  · simp [handleVideoUpload, hsel]
  · intro hp
    simp [xhrListener, view, hp]

/-- Instance of the amended C18: `clip.mp4` is selected, the upload is started, and the
server answers 200 with `task-1` and `stored.mp4`. -/
theorem upload_success_recorded_witness :
    (handleVideoUpload stateWithClip false).2 = some sampleClip ∧
    (xhrListener sampleClip (handleVideoUpload stateWithClip false).1
      (.load 200 (some ⟨"task-1", "stored.mp4"⟩))).uploadedVideo =
        some { task_id := "task-1", filename := "stored.mp4", file := some sampleClip } ∧
    view (xhrListener sampleClip (handleVideoUpload stateWithClip false).1
      (.load 200 (some ⟨"task-1", "stored.mp4"⟩))) = View.phoneInput :=
  ⟨(upload_success_recorded stateWithClip sampleClip rfl
      (handleVideoUpload stateWithClip false).1 "task-1" "stored.mp4").1,
   (upload_success_recorded stateWithClip sampleClip rfl
      (handleVideoUpload stateWithClip false).1 "task-1" "stored.mp4").2.1,
   (upload_success_recorded stateWithClip sampleClip rfl
      (handleVideoUpload stateWithClip false).1 "task-1" "stored.mp4").2.2.2.1 rfl⟩


/-- C19, as stated, fails: in the contact-capture state, a failure response of
start-processing whose body cannot be decoded (as an HTML error page of a
proxy) ends in the `catch` of line 164; the message is the network one, which
is neither a backend message nor the fallback `Failed to start processing.
Please try again.`. -/
theorem failed_start_undecodable_body :
    (handleGetShorts contactState "2025-01-01T00:00:00.000Z" 0 .resolved
      (.undecodable false)).app.uploadStatus =
        some ⟨"error", "Network error. Please check your connection and try again."⟩ ∧
    (handleGetShorts contactState "2025-01-01T00:00:00.000Z" 0 .resolved
      (.undecodable false)).app.uploadStatus ≠
        some ⟨"error", "Failed to start processing. Please try again."⟩ ∧
    (handleGetShorts contactState "2025-01-01T00:00:00.000Z" 0 .resolved
      (.undecodable false)).requests =
        [Request.webhook "+1 234 567 8901" "2025-01-01T00:00:00.000Z",
          Request.startProcessing "+1 234 567 8901"] := by
  decide

/-- C19, amended: a failed request leaves the phase and the inputs as they
were. When the upload ends with a status other than 200 or with a transport
error, only `uploadStatus` (an error) and `isUploading` (false) are written, so
`selectedFile`, `uploadedVideo` and the section shown are unchanged. When
start-processing does not succeed, only `uploadStatus` is written, so
`phoneNumber`, `uploadedVideo`, the job status and the section shown are
unchanged; the error carries the backend's message when the body of the
failure response decodes and the message is not empty, the fallback when it
decodes with no message or an empty one, and the network message when the
body cannot be decoded or the request is rejected. -/
theorem failed_request_keeps_inputs :
    (∀ (file : File) (s : AppState) (status : Nat) (response : Option UploadResponse),
      status ≠ 200 →
      xhrListener file s (.load status response) =
        { s with uploadStatus := some ⟨"error", "Upload failed. Please try again."⟩,
                 isUploading := false } ∧
      (xhrListener file s (.load status response)).selectedFile = s.selectedFile ∧
      (xhrListener file s (.load status response)).uploadedVideo = s.uploadedVideo ∧
      view (xhrListener file s (.load status response)) = view s) ∧
    (∀ (file : File) (s : AppState),
      xhrListener file s .error =
        { s with uploadStatus := some ⟨"error",
                   "Upload failed. Please check your connection and try again."⟩,
                 isUploading := false } ∧
      (xhrListener file s .error).selectedFile = s.selectedFile ∧
      (xhrListener file s .error).uploadedVideo = s.uploadedVideo ∧
      view (xhrListener file s .error) = view s) ∧
    (∀ (s : AppState) (timestamp : String) (elapsed0 : Int) (webhook : WebhookOutcome),
      (validatePhoneNumber s.phoneNumber).isValid = true → s.uploadedVideo.isSome = true →
      (∀ m : String, m ≠ "" →
        (handleGetShorts s timestamp elapsed0 webhook (.failure (some m))).app =
          { s with uploadStatus := some ⟨"error", m⟩ }) ∧
      (handleGetShorts s timestamp elapsed0 webhook (.failure (some ""))).app =
        { s with uploadStatus :=
                   some ⟨"error", "Failed to start processing. Please try again."⟩ } ∧
      (handleGetShorts s timestamp elapsed0 webhook (.failure none)).app =
        { s with uploadStatus :=
                   some ⟨"error", "Failed to start processing. Please try again."⟩ } ∧
      (handleGetShorts s timestamp elapsed0 webhook (.undecodable false)).app =
        { s with uploadStatus :=
                   some ⟨"error", "Network error. Please check your connection and try again."⟩ } ∧
      (handleGetShorts s timestamp elapsed0 webhook .rejected).app =
        { s with uploadStatus :=
                   some ⟨"error", "Network error. Please check your connection and try again."⟩ } ∧
      (∀ start : StartOutcome, (∀ t, start ≠ .ok t) →
        (handleGetShorts s timestamp elapsed0 webhook start).app.phoneNumber = s.phoneNumber ∧
        (handleGetShorts s timestamp elapsed0 webhook start).app.uploadedVideo =
          s.uploadedVideo ∧
        (handleGetShorts s timestamp elapsed0 webhook start).app.processingStatus =
          s.processingStatus ∧
        (handleGetShorts s timestamp elapsed0 webhook start).app.showPhoneInput =
          s.showPhoneInput ∧
        view (handleGetShorts s timestamp elapsed0 webhook start).app = view s ∧
        (handleGetShorts s timestamp elapsed0 webhook start).polling = none ∧
        (∃ message : String,
          (handleGetShorts s timestamp elapsed0 webhook start).app.uploadStatus =
            some ⟨"error", message⟩))) := by
  refine ⟨?_, ?_, ?_⟩
  · intro file s status response hstatus
    have h : xhrListener file s (.load status response) =
        { s with uploadStatus := some ⟨"error", "Upload failed. Please try again."⟩,
                 isUploading := false } := by
      simp [xhrListener, hstatus]
    rw [h]
    exact ⟨rfl, rfl, rfl, rfl⟩
  · intro file s
    exact ⟨rfl, rfl, rfl, rfl⟩
  · intro s timestamp elapsed0 webhook hvalid hvideo
    have hv (start : StartOutcome) :=
      handleGetShorts_valid s timestamp elapsed0 webhook start hvalid hvideo
    refine ⟨?_, ?_, ?_, ?_, ?_, ?_⟩
    · intro m hm
      rw [(hv _).2.2.1]
      simp [messageOrFallback, hm]
    · rw [(hv _).2.2.1]; rfl
    · rw [(hv _).2.2.1]; rfl
    · rw [(hv _).2.2.1]
    · rw [(hv _).2.2.1]
    · intro start hstart
      obtain ⟨_, _, ha, hp, _⟩ := hv start
      cases start with
      | ok t => exact absurd rfl (hstart t)
      | rejected => rw [ha, hp]; exact ⟨rfl, rfl, rfl, rfl, rfl, rfl, _, rfl⟩
      | failure m => rw [ha, hp]; exact ⟨rfl, rfl, rfl, rfl, rfl, rfl, _, rfl⟩
      | undecodable b => rw [ha, hp]; exact ⟨rfl, rfl, rfl, rfl, rfl, rfl, _, rfl⟩

/-- Instance of the amended C19: a 500 answer to the upload of `clip.mp4` keeps
the file selected, and a failure answer `{message: "queue full"}` to
start-processing keeps the contact and shows that message. -/
theorem failed_request_keeps_inputs_witness :
    (xhrListener sampleClip (handleVideoUpload stateWithClip false).1
      (.load 500 none)).selectedFile = some sampleClip ∧
    (xhrListener sampleClip (handleVideoUpload stateWithClip false).1
      (.load 500 none)).isUploading = false ∧
    (handleGetShorts contactState "2025-01-01T00:00:00.000Z" 0 .resolved
      (.failure (some "queue full"))).app =
        { contactState with uploadStatus := some ⟨"error", "queue full"⟩ } := by
  have h1 := (failed_request_keeps_inputs.1 sampleClip (handleVideoUpload stateWithClip false).1
    500 none (by decide))
  have h2 := (failed_request_keeps_inputs.2.2 contactState "2025-01-01T00:00:00.000Z" 0
    .resolved (by decide) rfl).1 "queue full" (by decide)
  refine ⟨h1.2.1, ?_, h2⟩
  rw [h1.1]


theorem mathRound_mono (x y : ℚ) (h : x ≤ y) : mathRound x ≤ mathRound y := by
  unfold mathRound
  exact Int.floor_mono (by linarith)

theorem mathRound_bounds (x : ℚ) (h0 : 0 ≤ x) (h1 : x ≤ 100) :
    0 ≤ mathRound x ∧ mathRound x ≤ 100 := by
  unfold mathRound
  constructor
  · exact Int.floor_nonneg.mpr (by linarith)
  · have : ⌊x + 1 / 2⌋ < 101 := Int.floor_lt.mpr (by push_cast; linarith)
    omega

theorem mathRound_hundred : mathRound 100 = 100 := by
  unfold mathRound
  rw [Int.floor_eq_iff]
  constructor <;> norm_num

/-- The percentage under any rounding of the two floating-point operations
that is monotone and exact on 0, 1 and 100. -/
theorem uploadPercentWith_props (fl : ℚ → ℚ) (hmono : Monotone fl) (h0 : fl 0 = 0)
    (h1 : fl 1 = 1) (h100 : fl 100 = 100) (total loaded1 loaded2 : Nat) (ht : 0 < total)
    (h12 : loaded1 ≤ loaded2) (h2 : loaded2 ≤ total) :
    uploadPercentWith fl loaded1 total ≤ uploadPercentWith fl loaded2 total ∧
    0 ≤ uploadPercentWith fl loaded1 total ∧
    uploadPercentWith fl loaded2 total ≤ 100 ∧
    uploadPercentWith fl total total = 100 := by
  have htq : (0 : ℚ) < total := by exact_mod_cast ht
  have h12q : (loaded1 : ℚ) ≤ loaded2 := by exact_mod_cast h12
  have h2q : (loaded2 : ℚ) ≤ total := by exact_mod_cast h2
  have hinner (l : Nat) (hl : l ≤ total) :
      0 ≤ fl (fl ((l : ℚ) / total) * 100) ∧ fl (fl ((l : ℚ) / total) * 100) ≤ 100 := by
    have hlq : (l : ℚ) ≤ total := by exact_mod_cast hl
    have ha : 0 ≤ fl ((l : ℚ) / total) := by
      rw [← h0]
      exact hmono (div_nonneg (by exact_mod_cast Nat.zero_le l) htq.le)
    have hb : fl ((l : ℚ) / total) ≤ 1 := by
      rw [← h1]
      exact hmono ((div_le_one htq).mpr hlq)
    constructor
    · have hle : (0 : ℚ) ≤ fl ((l : ℚ) / total) * 100 := by linarith
      exact le_trans (le_of_eq h0.symm) (hmono hle)
    · have hle : fl ((l : ℚ) / total) * 100 ≤ 100 := by linarith
      exact le_trans (hmono hle) (le_of_eq h100)
  refine ⟨?_, ?_, ?_, ?_⟩
  · unfold uploadPercentWith
    apply mathRound_mono
    apply hmono
    have : fl ((loaded1 : ℚ) / total) ≤ fl ((loaded2 : ℚ) / total) :=
      hmono (div_le_div_of_nonneg_right h12q htq.le)
    linarith
  · exact (mathRound_bounds _ (hinner loaded1 (by omega)).1 (hinner loaded1 (by omega)).2).1
  · exact (mathRound_bounds _ (hinner loaded2 h2).1 (hinner loaded2 h2).2).2
  · unfold uploadPercentWith
    rw [div_self (ne_of_gt htq), h1, one_mul, h100]
    exact mathRound_hundred

/-- C20: for every upload of total size `total > 0` and every pair of progress
events with `loaded1 ≤ loaded2 ≤ total`, the reported percentages
`round(100 * loaded / total)` satisfy `p(loaded1) ≤ p(loaded2)`; every reported
percentage is an integer between 0 and 100, and it is 100 when
`loaded = total`. The listener stores exactly this value. The same holds when
the division and the multiplication are each rounded by a monotone rounding
that is exact on 0, 1 and 100. -/
theorem uploadPercent_monotone (total loaded1 loaded2 : Nat) (ht : 0 < total)
    (h12 : loaded1 ≤ loaded2) (h2 : loaded2 ≤ total) :
    uploadPercent loaded1 total ≤ uploadPercent loaded2 total ∧
    0 ≤ uploadPercent loaded1 total ∧ uploadPercent loaded1 total ≤ 100 ∧
    0 ≤ uploadPercent loaded2 total ∧ uploadPercent loaded2 total ≤ 100 ∧
    uploadPercent total total = 100 ∧
    uploadPercent loaded2 total = ⌊(100 * (loaded2 : ℚ) / (total : ℚ)) + 1 / 2⌋ ∧
    (∀ (file : File) (s : AppState),
      (xhrListener file s (.progress true loaded2 total)).uploadProgress =
        uploadPercent loaded2 total) ∧
    (∀ fl : ℚ → ℚ, Monotone fl → fl 0 = 0 → fl 1 = 1 → fl 100 = 100 →
      uploadPercentWith fl loaded1 total ≤ uploadPercentWith fl loaded2 total ∧
      0 ≤ uploadPercentWith fl loaded1 total ∧
      uploadPercentWith fl loaded2 total ≤ 100 ∧
      uploadPercentWith fl total total = 100) := by
  have hid (l : Nat) : uploadPercent l total = uploadPercentWith id l total := rfl
  have hp := uploadPercentWith_props id monotone_id rfl rfl rfl total loaded1 loaded2 ht h12 h2
  have hp1 := uploadPercentWith_props id monotone_id rfl rfl rfl total loaded1 loaded1 ht
    (le_refl _) (by omega)
  have hp2 := uploadPercentWith_props id monotone_id rfl rfl rfl total loaded2 loaded2 ht
    (le_refl _) h2
  refine ⟨?_, ?_, ?_, ?_, ?_, ?_, ?_, fun _ _ => rfl, ?_⟩
  · rw [hid, hid]; exact hp.1
  · rw [hid]; exact hp.2.1
  · rw [hid]; exact hp1.2.2.1
  · rw [hid]; exact hp2.2.1
  · rw [hid]; exact hp.2.2.1
  · rw [hid]; exact hp.2.2.2
  · unfold uploadPercent mathRound
    congr 2
    ring
  · intro fl hmono h0 h1 h100
    exact uploadPercentWith_props fl hmono h0 h1 h100 total loaded1 loaded2 ht h12 h2

/-- Instance of C20: of 200 bytes, 50 sent are reported as 25 percent and 150
sent as 75 percent. -/
theorem uploadPercent_monotone_witness :
    uploadPercent 50 200 ≤ uploadPercent 150 200 ∧
    uploadPercent 200 200 = 100 ∧
    uploadPercent 150 200 = 75 := by
  have h := uploadPercent_monotone 200 50 150 (by decide) (by decide) (by decide)
  refine ⟨h.1, h.2.2.2.2.2.1, ?_⟩
  rw [h.2.2.2.2.2.2.1, Int.floor_eq_iff]
  constructor <;> norm_num


/-! ## Contact validation: the three checks -/

/-- The result of `validatePhoneNumber` by the number of ASCII digits of the
contact string. -/
theorem validatePhoneNumber_cases (s : String) :
    ((s.data.filter isDigitChar).length = 0 ∧
      validatePhoneNumber s =
        { isValid := false, message := "Please enter your phone number" }) ∨
    (((1 ≤ (s.data.filter isDigitChar).length ∧ (s.data.filter isDigitChar).length ≤ 6) ∨
        15 < (s.data.filter isDigitChar).length) ∧
      validatePhoneNumber s =
        { isValid := false, message := "Please enter a valid phone number (7-15 digits)" }) ∨
    ((7 ≤ (s.data.filter isDigitChar).length ∧ (s.data.filter isDigitChar).length ≤ 15) ∧
      validatePhoneNumber s = { isValid := true, message := "" }) := by
  have hclean : (replaceNonDigits s).data = s.data.filter isDigitChar := rfl
  unfold validatePhoneNumber
  simp only []
  by_cases hempty : (replaceNonDigits s).data.isEmpty = true
  · left
    have hnil : s.data.filter isDigitChar = [] := by
      rw [← hclean]; exact List.isEmpty_iff.mp hempty
    exact ⟨by rw [hnil]; rfl, by rw [if_pos hempty]⟩
  · have hne : (replaceNonDigits s).data.isEmpty = false := by simpa using hempty
    have hpos : 1 ≤ (s.data.filter isDigitChar).length := by
      rw [← hclean]
      cases hd : (replaceNonDigits s).data with
      | nil => rw [hd] at hne; cases hne
      | cons c cs => simp
    have htest := testOnlyDigits_replaceNonDigits s hne
    right
    by_cases hlen : (replaceNonDigits s).data.length < 7 ∨ 15 < (replaceNonDigits s).data.length
    · left
      have hb : (decide ((replaceNonDigits s).data.length < 7) ||
          decide ((replaceNonDigits s).data.length > 15)) = true := by
        simpa using hlen
      rw [if_neg hempty, if_pos hb]
      rw [hclean] at hlen
      refine ⟨?_, rfl⟩
      rcases hlen with h | h
      · left; omega
      · right; exact h
    · right
      have hb : ¬ ((decide ((replaceNonDigits s).data.length < 7) ||
          decide ((replaceNonDigits s).data.length > 15)) = true) := by
        simpa using hlen
      rw [if_neg hempty, if_neg hb]
      rw [hclean] at hlen
      simp only [htest, Bool.not_true]
      exact ⟨by omega, rfl⟩

/-- C21: the third check of `validatePhoneNumber` can never fail. For every
string the message is `''` (exactly when the result is valid, that is with 7
to 15 ASCII digits), `Please enter your phone number` (exactly when the string
contains no ASCII digit) or `Please enter a valid phone number (7-15 digits)`
(exactly when it contains between 1 and 6 or more than 15 ASCII digits); it is
never `Phone number should contain only digits`, because the test of the third
check holds of every non-empty cleaned string. -/
theorem validatePhoneNumber_message (s : String) :
    ((validatePhoneNumber s).message = "" ∨
      (validatePhoneNumber s).message = "Please enter your phone number" ∨
      (validatePhoneNumber s).message = "Please enter a valid phone number (7-15 digits)") ∧
    ((validatePhoneNumber s).message = "" ↔ (validatePhoneNumber s).isValid = true) ∧
    ((validatePhoneNumber s).message = "" ↔
      (7 ≤ (s.data.filter isDigitChar).length ∧ (s.data.filter isDigitChar).length ≤ 15)) ∧
    ((validatePhoneNumber s).message = "Please enter your phone number" ↔
      (s.data.filter isDigitChar).length = 0) ∧
    ((validatePhoneNumber s).message = "Please enter your phone number" ↔
      ∀ c ∈ s.data, isDigitChar c = false) ∧
    ((validatePhoneNumber s).message = "Please enter a valid phone number (7-15 digits)" ↔
      ((1 ≤ (s.data.filter isDigitChar).length ∧ (s.data.filter isDigitChar).length ≤ 6) ∨
        15 < (s.data.filter isDigitChar).length)) ∧
    (validatePhoneNumber s).message ≠ "Phone number should contain only digits" ∧
    ((replaceNonDigits s).data.isEmpty = false →
      testOnlyDigits (replaceNonDigits s) = true) := by
  have hzero : (s.data.filter isDigitChar).length = 0 ↔ ∀ c ∈ s.data, isDigitChar c = false := by
    rw [List.length_eq_zero, List.filter_eq_nil_iff]
    simp
  have h12 : ("Please enter your phone number" : String) ≠
      "Please enter a valid phone number (7-15 digits)" := by decide
  have h10 : ("Please enter your phone number" : String) ≠ "" := by decide
  have h20 : ("Please enter a valid phone number (7-15 digits)" : String) ≠ "" := by decide
  have h13 : ("Please enter your phone number" : String) ≠
      "Phone number should contain only digits" := by decide
  have h23 : ("Please enter a valid phone number (7-15 digits)" : String) ≠
      "Phone number should contain only digits" := by decide
  have h03 : ("" : String) ≠ "Phone number should contain only digits" := by decide
  rcases validatePhoneNumber_cases s with ⟨hn, hv⟩ | ⟨hn, hv⟩ | ⟨hn, hv⟩
  · -- no digit
    have hm : (validatePhoneNumber s).message = "Please enter your phone number" := by rw [hv]
    have hi : (validatePhoneNumber s).isValid = false := by rw [hv]
    rw [hm, hi]
    refine ⟨Or.inr (Or.inl rfl), ?_, ?_, ?_, ?_, ?_, h13, testOnlyDigits_replaceNonDigits s⟩
    · exact ⟨fun h => absurd h h10, fun h => by cases h⟩
    · exact ⟨fun h => absurd h h10, fun h => by omega⟩
    · exact ⟨fun _ => hn, fun _ => rfl⟩
    · exact ⟨fun _ => hzero.mp hn, fun _ => rfl⟩
    · exact ⟨fun h => absurd h h12, fun h => by omega⟩
  · -- 1 to 6 digits, or more than 15
    have hm : (validatePhoneNumber s).message =
        "Please enter a valid phone number (7-15 digits)" := by rw [hv]
    have hi : (validatePhoneNumber s).isValid = false := by rw [hv]
    rw [hm, hi]
    refine ⟨Or.inr (Or.inr rfl), ?_, ?_, ?_, ?_, ?_, h23, testOnlyDigits_replaceNonDigits s⟩
    · exact ⟨fun h => absurd h h20, fun h => by cases h⟩
    · exact ⟨fun h => absurd h h20, fun h => by omega⟩
    · exact ⟨fun h => absurd h.symm h12, fun h => by omega⟩
    · exact ⟨fun h => absurd h.symm h12, fun h => by have := hzero.mpr h; omega⟩
    · exact ⟨fun _ => hn, fun _ => rfl⟩
  · -- 7 to 15 digits
    have hm : (validatePhoneNumber s).message = "" := by rw [hv]
    have hi : (validatePhoneNumber s).isValid = true := by rw [hv]
    rw [hm, hi]
    refine ⟨Or.inl rfl, ?_, ?_, ?_, ?_, ?_, h03, testOnlyDigits_replaceNonDigits s⟩
    · exact ⟨fun _ => rfl, fun _ => rfl⟩
    · exact ⟨fun _ => hn, fun _ => rfl⟩
    · exact ⟨fun h => absurd h.symm h10, fun h => by omega⟩
    · exact ⟨fun h => absurd h.symm h10, fun h => by have := hzero.mpr h; omega⟩
    · exact ⟨fun h => absurd h.symm h20, fun h => by omega⟩

/-- Instance of C21: a contact with letters only gets the first message, and
`12ab` the second one. -/
theorem validatePhoneNumber_message_witness :
    (validatePhoneNumber "abc").message = "Please enter your phone number" ∧
    (validatePhoneNumber "12ab").message =
      "Please enter a valid phone number (7-15 digits)" ∧
    testOnlyDigits (replaceNonDigits "12ab") = true :=
  ⟨(validatePhoneNumber_message "abc").2.2.2.1.mpr (by decide),
   (validatePhoneNumber_message "12ab").2.2.2.2.2.1.mpr (by decide),
   (validatePhoneNumber_message "12ab").2.2.2.2.2.2.2 (by decide)⟩


/-! ## File intake: the extension that is tested -/

theorem splitChars_ne_nil (sep : Char) (cs : List Char) : splitChars sep cs ≠ [] := by
  cases cs with
  | nil => simp [splitChars]
  | cons c cs =>
    unfold splitChars
    split
    · simp
    · split <;> simp

/-- A text without the separator is its own single piece. -/
theorem splitChars_of_not_mem (sep : Char) (cs : List Char) (h : sep ∉ cs) :
    splitChars sep cs = [cs] := by
  induction cs with
  | nil => rfl
  | cons c cs ih =>
    have hc : c ≠ sep := fun hc => h (by simp [hc])
    have hcs : sep ∉ cs := fun hm => h (List.mem_cons_of_mem _ hm)
    unfold splitChars
    rw [if_neg hc, ih hcs]

/-- The pieces of a text around an occurrence of the separator are the pieces
of what precedes it followed by the pieces of what follows it. -/
theorem splitChars_append (sep : Char) (pre post : List Char) :
    splitChars sep (pre ++ sep :: post) = splitChars sep pre ++ splitChars sep post := by
  induction pre with
  | nil => simp [splitChars]
  | cons c pre ih =>
    by_cases hc : c = sep
    · simp only [List.cons_append]
      rw [splitChars, if_pos hc, ih]
      conv_rhs => rw [splitChars, if_pos hc]
      rfl
    · simp only [List.cons_append]
      rw [splitChars, if_neg hc, ih]
      conv_rhs => rw [splitChars, if_neg hc]
      cases hp : splitChars sep pre with
      | nil => exact absurd hp (splitChars_ne_nil sep pre)
      | cons p ps => rfl

/-- Without a dot, `name.split('.').pop()` is the whole name. -/
theorem pop_split_no_dot (name : String) (h : '.' ∉ name.data) :
    pop (split name '.') = some name := by
  simp [pop, split, splitChars_of_not_mem '.' name.data h]

/-- With a dot, `name.split('.').pop()` is the text after the last dot. -/
theorem pop_split_last_dot (name : String) (pre post : List Char)
    (h : name.data = pre ++ '.' :: post) (hpost : '.' ∉ post) :
    pop (split name '.') = some ⟨post⟩ := by
  simp [pop, split, h, splitChars_append, splitChars_of_not_mem '.' post hpost]

theorem toLower_dot : Char.toLower '.' = '.' := by decide

/-- ASCII lower-casing maps no character from outside ASCII into ASCII. -/
theorem toLower_ascii (c : Char) (h : c.toLower.toNat < 128) : c.toNat < 128 := by
  unfold Char.toLower at h
  simp only [ge_iff_le] at h
  split at h
  · omega
  · exact h

/-- The allowed extensions are the five names with a dot in front. -/
theorem dot_append_mem_validExtensions (x : String) :
    "." ++ x ∈ [".mp4", ".avi", ".mov", ".wmv", ".mkv"] ↔
      x ∈ ["mp4", "avi", "mov", "wmv", "mkv"] := by
  have hinj (y : String) : "." ++ x = "." ++ y ↔ x = y := by
    constructor
    · intro h
      have hd := congrArg String.data h
      simp only [String.data_append] at hd
      exact String.ext (List.append_cancel_left hd)
    · intro h; rw [h]
  have h1 : (".mp4" : String) = "." ++ "mp4" := by decide
  have h2 : (".avi" : String) = "." ++ "avi" := by decide
  have h3 : (".mov" : String) = "." ++ "mov" := by decide
  have h4 : (".wmv" : String) = "." ++ "wmv" := by decide
  have h5 : (".mkv" : String) = "." ++ "mkv" := by decide
  simp only [List.mem_cons, List.mem_singleton, List.not_mem_nil, or_false]
  rw [h1, h2, h3, h4, h5, hinj, hinj, hinj, hinj, hinj]

/-- A name that reads `mp4`, `avi`, `mov`, `wmv` or `mkv` in some letter case
has no dot and only ASCII characters. -/
theorem bare_extension_name (name : String)
    (h : asciiToLowerCase name ∈ ["mp4", "avi", "mov", "wmv", "mkv"]) :
    '.' ∉ name.data ∧ ∀ c ∈ name.data, c.toNat < 128 := by
  have hlow : ∀ c ∈ name.data, Char.toLower c ∈ (asciiToLowerCase name).data := by
    intro c hc
    exact List.mem_map_of_mem _ hc
  have hfacts : '.' ∉ (asciiToLowerCase name).data ∧
      ∀ d ∈ (asciiToLowerCase name).data, d.toNat < 128 := by
    simp only [List.mem_cons, List.mem_singleton, List.not_mem_nil, or_false] at h
    rcases h with h | h | h | h | h <;> rw [h] <;> decide
  constructor
  · intro hdot
    have := hlow '.' hdot
    rw [toLower_dot] at this
    exact hfacts.1 this
  · intro c hc
    exact toLower_ascii c (hfacts.2 _ (hlow c hc))

/-- C22: the extension `handleFileSelect` tests is `.` followed by the
lower-cased text after the last `.` of the file name, or by the whole
lower-cased name when the name has no `.`. With a lower-casing that is the
ASCII one on ASCII text, whether an ASCII extension matches depends only on its
lower-cased form (`CLIP.MP4` is accepted), and a file whose whole name reads
`mp4`, `avi`, `mov`, `wmv` or `mkv` in any letter case, with any declared type
(an unrecognised one too) and a size within the limit, is accepted. -/
theorem fileExtension_tested (toLowerCase : String → String)
    (hascii : ∀ t : String, (∀ c ∈ t.data, c.toNat < 128) →
      toLowerCase t = asciiToLowerCase t) :
    (∀ file : File, '.' ∉ file.name.data →
      fileExtension toLowerCase file = "." ++ toLowerCase file.name) ∧
    (∀ (file : File) (pre post : List Char), file.name.data = pre ++ '.' :: post →
      '.' ∉ post → fileExtension toLowerCase file = "." ++ toLowerCase ⟨post⟩) ∧
    (∀ (file : File) (pre post : List Char), file.name.data = pre ++ '.' :: post →
      '.' ∉ post → (∀ c ∈ post, c.toNat < 128) →
      (fileExtension toLowerCase file ∈ [".mp4", ".avi", ".mov", ".wmv", ".mkv"] ↔
        asciiToLowerCase ⟨post⟩ ∈ ["mp4", "avi", "mov", "wmv", "mkv"])) ∧
    (∀ (s : AppState) (size : Nat) (type : String), size ≤ 104857600 →
      (handleFileSelect toLowerCase s
          (some { name := "CLIP.MP4", size := size, type := type })).selectedFile =
        some { name := "CLIP.MP4", size := size, type := type }) ∧
    (∀ (s : AppState) (file : File),
      asciiToLowerCase file.name ∈ ["mp4", "avi", "mov", "wmv", "mkv"] →
      file.size ≤ 104857600 →
      '.' ∉ file.name.data ∧
      fileExtension toLowerCase file = "." ++ asciiToLowerCase file.name ∧
      (handleFileSelect toLowerCase s (some file)).selectedFile = some file) := by
  have hno : ∀ file : File, '.' ∉ file.name.data →
      fileExtension toLowerCase file = "." ++ toLowerCase file.name := by
    intro file h
    simp [fileExtension, pop_split_no_dot file.name h]
  have hlast : ∀ (file : File) (pre post : List Char), file.name.data = pre ++ '.' :: post →
      '.' ∉ post → fileExtension toLowerCase file = "." ++ toLowerCase ⟨post⟩ := by
    intro file pre post h hpost
    simp [fileExtension, pop_split_last_dot file.name pre post h hpost]
  have hmax : maxSize = 104857600 := rfl
  refine ⟨hno, hlast, ?_, ?_, ?_⟩
  · intro file pre post h hpost hasc
    rw [hlast file pre post h hpost, hascii ⟨post⟩ hasc]
    exact dot_append_mem_validExtensions _
  · intro s size type hsize
    have hext : fileExtension toLowerCase { name := "CLIP.MP4", size := size, type := type } =
        ".mp4" := by
      rw [hlast _ "CLIP".data "MP4".data rfl (by decide), hascii _ (by decide)]
      decide
    have hvalid : isValidType toLowerCase { name := "CLIP.MP4", size := size, type := type } =
        true :=
      (isValidType_iff _ _).mpr (Or.inr (by rw [hext]; decide))
    rw [handleFileSelect_selectedFile, if_pos ⟨hvalid, by rw [hmax]; exact hsize⟩]
  · intro s file hname hsize
    obtain ⟨hdot, hasc⟩ := bare_extension_name file.name hname
    have hext : fileExtension toLowerCase file = "." ++ asciiToLowerCase file.name := by
      rw [hno file hdot, hascii file.name hasc]
    have hvalid : isValidType toLowerCase file = true :=
      (isValidType_iff _ _).mpr
        (Or.inr (by rw [hext]; exact (dot_append_mem_validExtensions _).mpr hname))
    refine ⟨hdot, hext, ?_⟩
    rw [handleFileSelect_selectedFile, if_pos ⟨hvalid, by rw [hmax]; exact hsize⟩]

/-- Instance of C22, with the ASCII lower-casing: `CLIP.MP4` of 50 MB with an
empty declared type is accepted; `archive.tar.MKV` is tested as `.mkv`; and a
file named `Mp4`, with no dot and the declared type `text/plain`, is
accepted. -/
theorem fileExtension_tested_witness :
    (handleFileSelect asciiToLowerCase initialState
        (some { name := "CLIP.MP4", size := 52428800, type := "" })).selectedFile =
      some { name := "CLIP.MP4", size := 52428800, type := "" } ∧
    fileExtension asciiToLowerCase { name := "archive.tar.MKV", size := 1, type := "" } =
      "." ++ asciiToLowerCase "MKV" ∧
    (handleFileSelect asciiToLowerCase initialState
        (some { name := "Mp4", size := 1024, type := "text/plain" })).selectedFile =
      some { name := "Mp4", size := 1024, type := "text/plain" } :=
  ⟨(fileExtension_tested asciiToLowerCase (fun _ _ => rfl)).2.2.2.1 initialState 52428800 ""
      (by decide),
   (fileExtension_tested asciiToLowerCase (fun _ _ => rfl)).2.1
      { name := "archive.tar.MKV", size := 1, type := "" } "archive.tar".data "MKV".data rfl
      (by decide),
   ((fileExtension_tested asciiToLowerCase (fun _ _ => rfl)).2.2.2.2 initialState
      { name := "Mp4", size := 1024, type := "text/plain" } (by decide) (by decide)).2.2⟩


/-! ## Cosmetic progress in double arithmetic -/

/-- Rounding to the nearest integer, below the half. -/
theorem roundHalfEven_of_lt (q : ℚ) (n : Int) (h1 : (n : ℚ) ≤ q) (h2 : q < n + 1 / 2) :
    roundHalfEven q = n := by
  have hfloor : ⌊q⌋ = n := by
    rw [Int.floor_eq_iff]
    exact ⟨h1, by linarith⟩
  unfold roundHalfEven
  rw [hfloor, if_pos (by linarith)]

/-- Rounding to the nearest integer, above the half. -/
theorem roundHalfEven_of_gt (q : ℚ) (n : Int) (h1 : (n : ℚ) + 1 / 2 < q) (h2 : q < n + 1) :
    roundHalfEven q = n + 1 := by
  have hfloor : ⌊q⌋ = n := by
    rw [Int.floor_eq_iff]
    exact ⟨by linarith, h2⟩
  unfold roundHalfEven
  rw [hfloor, if_neg (by linarith), if_pos (by linarith)]

/-- The double nearest to a positive `x` with `2 ^ e ≤ x < 2 ^ (e + 1)`. -/
theorem roundDouble_of_exponent (x : ℚ) (e : Int) (hx : 0 < x) (h1 : (2 : ℚ) ^ e ≤ x)
    (h2 : x < (2 : ℚ) ^ (e + 1)) :
    roundDouble x = (roundHalfEven (x * 2 ^ (52 - e)) : ℚ) * 2 ^ (e - 52) := by
  have habs : |x| = x := abs_of_pos hx
  have hlog : Int.log 2 x = e := by
    have hle : e ≤ Int.log 2 x :=
      (Int.zpow_le_iff_le_log (by norm_num) hx).mp (by exact_mod_cast h1)
    have hlt : Int.log 2 x < e + 1 :=
      (Int.lt_zpow_iff_log_lt (by norm_num) hx).mp (by exact_mod_cast h2)
    omega
  unfold roundDouble
  rw [if_neg (ne_of_gt hx), habs, hlog]

/-- The double quotient `2300 / 360000`. -/
theorem roundDouble_quotient_2300 :
    roundDouble ((2300 : ℚ) / 360000) = 7365887390543745 / 1152921504606846976 := by
  rw [roundDouble_of_exponent _ (-8) (by norm_num) (by norm_num) (by norm_num)]
  rw [roundHalfEven_of_gt _ 7365887390543744 (by norm_num) (by norm_num)]
  norm_num

/-- The double product of that quotient and 99. -/
theorem roundDouble_product_2300 :
    roundDouble ((7365887390543745 : ℚ) / 1152921504606846976 * 99) =
      2848526764311839 / 4503599627370496 := by
  rw [roundDouble_of_exponent _ (-1) (by norm_num) (by norm_num) (by norm_num)]
  rw [roundHalfEven_of_gt _ 5697053528623677 (by norm_num) (by norm_num)]
  norm_num


/-- Exact arithmetic is a rounding with no error. -/
theorem roundsWithin_id : RoundsWithin id 0 :=
  { mono := fun _ _ _ hxy => hxy, zero := rfl, one := rfl, ninetyNine := rfl,
    eps_nonneg := le_refl _, eps_le := by norm_num,
    near := fun x _ _ => by simp }

/-- In exact arithmetic the rounded progress is the exact one. -/
theorem progressAtWith_id (t : Int) : progressAtWith id t = progressAt t := rfl

/-- The rounded progress never decreases with the elapsed time. -/
theorem progressAtWith_mono (fl : ℚ → ℚ) (ε : ℚ) (h : RoundsWithin fl ε) (t1 t2 : Int)
    (h0 : 0 ≤ t1) (h12 : t1 ≤ t2) : progressAtWith fl t1 ≤ progressAtWith fl t2 := by
  unfold progressAtWith
  rw [duration_eq]
  have hcast0 : (0 : ℚ) ≤ t1 := by exact_mod_cast h0
  have hcast : (t1 : ℚ) ≤ t2 := by exact_mod_cast h12
  have hx0 : (0 : ℚ) ≤ (t1 : ℚ) / 360000 := div_nonneg hcast0 (by norm_num)
  have ha0 : 0 ≤ fl ((t1 : ℚ) / 360000) :=
    le_trans (le_of_eq h.zero.symm) (h.mono _ _ (le_refl _) hx0)
  have ha := h.mono _ _ hx0 (div_le_div_of_nonneg_right hcast (by norm_num : (0 : ℚ) ≤ 360000))
  apply min_le_min _ (le_refl _)
  exact h.mono _ _ (by linarith) (by linarith)

/-- From 6 minutes on the rounded progress is 99. -/
theorem progressAtWith_late (fl : ℚ → ℚ) (ε : ℚ) (h : RoundsWithin fl ε) (t : Int)
    (ht : 360000 ≤ t) : progressAtWith fl t = 99 := by
  unfold progressAtWith
  rw [duration_eq]
  have hcast : (360000 : ℚ) ≤ t := by exact_mod_cast ht
  have hx : (1 : ℚ) ≤ (t : ℚ) / 360000 := by
    rw [le_div_iff₀ (by norm_num)]; linarith
  have ha : 1 ≤ fl ((t : ℚ) / 360000) :=
    le_trans (le_of_eq h.one.symm) (h.mono _ _ (by norm_num) hx)
  have hb : 99 ≤ fl (fl ((t : ℚ) / 360000) * 99) :=
    le_trans (le_of_eq h.ninetyNine.symm) (h.mono _ _ (by norm_num) (by linarith))
  exact min_eq_right hb

/-- At the start the rounded progress is 0. -/
theorem progressAtWith_zero (fl : ℚ → ℚ) (ε : ℚ) (h : RoundsWithin fl ε) :
    progressAtWith fl 0 = 0 := by
  unfold progressAtWith
  simp only [Int.cast_zero, zero_div, h.zero, zero_mul]
  norm_num

/-- Between the start and 6 minutes the doubly rounded product is within the
two relative errors of `99 * t / 360000`, and below 99. -/
theorem rounded_product_bounds (fl : ℚ → ℚ) (ε : ℚ) (h : RoundsWithin fl ε) (t : Int)
    (h0 : 0 < t) (h1 : t < 360000) :
    99 * ((t : ℚ) / 360000) * (1 - ε) * (1 - ε) ≤ fl (fl ((t : ℚ) / 360000) * 99) ∧
    fl (fl ((t : ℚ) / 360000) * 99) ≤ 99 * ((t : ℚ) / 360000) * (1 + ε) * (1 + ε) ∧
    fl (fl ((t : ℚ) / 360000) * 99) < 99 := by
  have hε0 := h.eps_nonneg
  have hε := h.eps_le
  have ht1 : (1 : ℚ) ≤ t := by exact_mod_cast h0
  have ht2 : (t : ℚ) ≤ 359999 := by
    have : t ≤ 359999 := by omega
    exact_mod_cast this
  have hx1 : (1 : ℚ) / 360000 ≤ (t : ℚ) / 360000 :=
    div_le_div_of_nonneg_right ht1 (by norm_num)
  have hx2 : (t : ℚ) / 360000 ≤ 359999 / 360000 :=
    div_le_div_of_nonneg_right ht2 (by norm_num)
  have hx0 : (0 : ℚ) ≤ (t : ℚ) / 360000 := by linarith
  obtain ⟨ha1, ha2⟩ := h.near ((t : ℚ) / 360000) hx1 (by linarith)
  -- the rounded quotient lies between fixed numbers
  have ha1' : (t : ℚ) / 360000 * (999999 / 1000000) ≤ fl ((t : ℚ) / 360000) :=
    le_trans (mul_le_mul_of_nonneg_left (by linarith) hx0) ha1
  have ha2' : fl ((t : ℚ) / 360000) ≤ (t : ℚ) / 360000 * (1000001 / 1000000) :=
    le_trans ha2 (mul_le_mul_of_nonneg_left (by linarith) hx0)
  have hy1 : (1 : ℚ) / 360000 ≤ fl ((t : ℚ) / 360000) * 99 := by linarith
  have hy2 : fl ((t : ℚ) / 360000) * 99 ≤ 100 := by linarith
  have hy0 : (0 : ℚ) ≤ fl ((t : ℚ) / 360000) * 99 := by linarith
  obtain ⟨hb1, hb2⟩ := h.near (fl ((t : ℚ) / 360000) * 99) hy1 hy2
  have hm : (0 : ℚ) ≤ 1 - ε := by linarith
  have hp : (0 : ℚ) ≤ 1 + ε := by linarith
  refine ⟨?_, ?_, ?_⟩
  · have : 99 * ((t : ℚ) / 360000) * (1 - ε) * (1 - ε) ≤
        fl ((t : ℚ) / 360000) * 99 * (1 - ε) := by
      apply mul_le_mul_of_nonneg_right _ hm
      linarith
    exact le_trans this hb1
  · have : fl ((t : ℚ) / 360000) * 99 * (1 + ε) ≤
        99 * ((t : ℚ) / 360000) * (1 + ε) * (1 + ε) := by
      apply mul_le_mul_of_nonneg_right _ hp
      linarith
    exact le_trans hb2 this
  · have hb2' : fl (fl ((t : ℚ) / 360000) * 99) ≤
        fl ((t : ℚ) / 360000) * 99 * (1000001 / 1000000) :=
      le_trans hb2 (mul_le_mul_of_nonneg_left (by linarith) hy0)
    linarith


/-- C11, as stated, fails in the double arithmetic of the source: at
`t = 2300` the quotient `2300 / 360000` and its product with 99 are each
rounded to a double, and the value written is
`2848526764311839 / 2 ^ 52` (printed `0.6325000000000001`), which is neither
`min(99 * 2300 / 360000, 99) = 253 / 400` nor the double nearest to it. -/
theorem progress_double_differs_at_2300 :
    progressAtWith roundDouble 2300 = 2848526764311839 / 4503599627370496 ∧
    min (99 * ((2300 : Int) : ℚ) / 360000) 99 = 253 / 400 ∧
    progressAtWith roundDouble 2300 ≠ min (99 * ((2300 : Int) : ℚ) / 360000) 99 ∧
    (updateProgressWith roundDouble processingState 2300).1.dummyProgress ≠ 253 / 400 ∧
    roundDouble (253 / 400) = 5697053528623677 / 9007199254740992 ∧
    progressAtWith roundDouble 2300 ≠ roundDouble (253 / 400) := by
  have hv : progressAtWith roundDouble 2300 = 2848526764311839 / 4503599627370496 := by
    unfold progressAtWith
    rw [duration_eq]
    have hq : (((2300 : Int) : ℚ)) / 360000 = (2300 : ℚ) / 360000 := by norm_num
    rw [hq, roundDouble_quotient_2300, roundDouble_product_2300]
    norm_num
  have hexact : min (99 * ((2300 : Int) : ℚ) / 360000) 99 = 253 / 400 := by norm_num
  have hnear : roundDouble (253 / 400) = 5697053528623677 / 9007199254740992 := by
    rw [roundDouble_of_exponent _ (-1) (by norm_num) (by norm_num) (by norm_num)]
    rw [roundHalfEven_of_lt _ 5697053528623677 (by norm_num) (by norm_num)]
    norm_num
  refine ⟨hv, hexact, ?_, ?_, hnear, ?_⟩
  · rw [hv, hexact]; norm_num
  · show progressAtWith roundDouble 2300 ≠ 253 / 400
    rw [hv]; norm_num
  · rw [hv, hnear]; norm_num

/-- C11, amended: for every elapsed time `t ≥ 0` in ms, `updateProgress` writes
`min((t / 360000) * 99, 99)` computed with each operation rounded, and nothing
else. For every rounding that is monotone, exact on 0, 1 and 99 and of
relative error at most `ε` (as `roundDouble` is, with `ε = 2 ^ (-53)`), the value is within the
relative error `2 * ε + ε * ε` of `min(99 * t / 360000, 99)`, and equal to it in
exact arithmetic; it lies in `[0, 99]`, is non-decreasing in `t`, is below 99
exactly when `t < 360000` and is 99 from `t = 360000` on; and the next tick is
scheduled exactly when `t < 360000`. -/
theorem updateProgress_rounded (fl : ℚ → ℚ) (ε : ℚ) (h : RoundsWithin fl ε) (s : AppState)
    (t : Int) (ht : 0 ≤ t) :
    (updateProgressWith fl s t).1 = { s with dummyProgress := progressAtWith fl t } ∧
    |progressAtWith fl t - min (99 * (t : ℚ) / 360000) 99| ≤
      min (99 * (t : ℚ) / 360000) 99 * (2 * ε + ε * ε) ∧
    progressAtWith id t = min (99 * (t : ℚ) / 360000) 99 ∧
    0 ≤ progressAtWith fl t ∧
    progressAtWith fl t ≤ 99 ∧
    (∀ t2 : Int, t ≤ t2 → progressAtWith fl t ≤ progressAtWith fl t2) ∧
    (progressAtWith fl t < 99 ↔ t < 360000) ∧
    (360000 ≤ t → progressAtWith fl t = 99) ∧
    ((updateProgressWith fl s t).2 = true ↔ t < 360000) ∧
    (360000 ≤ t → (updateProgressWith fl s t).2 = false) := by
  have hε0 := h.eps_nonneg
  have hε := h.eps_le
  have hle99 : progressAtWith fl t ≤ 99 := min_le_right _ _
  have hlt : progressAtWith fl t < 99 ↔ t < 360000 := by
    constructor
    · intro hv
      by_contra hnot
      have := progressAtWith_late fl ε h t (by omega)
      rw [this] at hv
      exact lt_irrefl _ hv
    · intro hsmall
      rcases (by omega : t = 0 ∨ 0 < t) with h0 | h0
      · rw [h0, progressAtWith_zero fl ε h]; norm_num
      · have hb := (rounded_product_bounds fl ε h t h0 hsmall).2.2
        unfold progressAtWith
        rw [duration_eq]
        exact lt_of_le_of_lt (min_le_left _ _) hb
  have hsnd : (updateProgressWith fl s t).2 = true ↔ t < 360000 := by
    simp only [updateProgressWith, decide_eq_true_eq]
    exact hlt
  refine ⟨rfl, ?_, ?_, ?_, hle99, ?_, hlt, progressAtWith_late fl ε h t, hsnd, ?_⟩
  · -- the distance to the exact value
    rcases (by omega : t = 0 ∨ (0 < t ∧ t < 360000) ∨ 360000 ≤ t) with h0 | ⟨h0, h1⟩ | h1
    · rw [h0, progressAtWith_zero fl ε h]
      norm_num
    · obtain ⟨hb1, hb2, hb3⟩ := rounded_product_bounds fl ε h t h0 h1
      have hv : progressAtWith fl t = fl (fl ((t : ℚ) / 360000) * 99) := by
        unfold progressAtWith
        rw [duration_eq]
        exact min_eq_left (le_of_lt hb3)
      have ht1 : (t : ℚ) < 360000 := by exact_mod_cast h1
      have ht0 : (0 : ℚ) < t := by exact_mod_cast h0
      have hx : 99 * (t : ℚ) / 360000 < 99 := by
        rw [div_lt_iff₀ (by norm_num)]; linarith
      have hexact : min (99 * (t : ℚ) / 360000) 99 = 99 * ((t : ℚ) / 360000) := by
        rw [min_eq_left (le_of_lt hx)]; ring
      have hx0 : (0 : ℚ) ≤ 99 * ((t : ℚ) / 360000) := by positivity
      have hsq : (0 : ℚ) ≤ 99 * ((t : ℚ) / 360000) * (ε * ε) :=
        mul_nonneg hx0 (mul_nonneg hε0 hε0)
      rw [hv, hexact, abs_le]
      constructor
      · have : 99 * ((t : ℚ) / 360000) * (1 - ε) * (1 - ε) =
            99 * ((t : ℚ) / 360000) - 99 * ((t : ℚ) / 360000) * (2 * ε + ε * ε) +
              2 * (99 * ((t : ℚ) / 360000) * (ε * ε)) := by ring
        linarith
      · have : 99 * ((t : ℚ) / 360000) * (1 + ε) * (1 + ε) =
            99 * ((t : ℚ) / 360000) + 99 * ((t : ℚ) / 360000) * (2 * ε + ε * ε) := by ring
        linarith
    · have hcast : (360000 : ℚ) ≤ t := by exact_mod_cast h1
      have hx : (99 : ℚ) ≤ 99 * (t : ℚ) / 360000 := by
        rw [le_div_iff₀ (by norm_num)]; linarith
      rw [progressAtWith_late fl ε h t h1, min_eq_right hx]
      have : (0 : ℚ) ≤ 99 * (2 * ε + ε * ε) := by positivity
      simpa using this
  · rw [progressAtWith_id, progressAt_eq]
  · -- the value is not negative
    have hcast : (0 : ℚ) ≤ t := by exact_mod_cast ht
    have ha : 0 ≤ fl ((t : ℚ) / 360000) :=
      le_trans (le_of_eq h.zero.symm)
        (h.mono _ _ (le_refl _) (div_nonneg hcast (by norm_num)))
    have hb : 0 ≤ fl (fl ((t : ℚ) / 360000) * 99) :=
      le_trans (le_of_eq h.zero.symm) (h.mono _ _ (le_refl _) (by linarith))
    unfold progressAtWith
    rw [duration_eq]
    exact le_min hb (by norm_num)
  · intro t2 h2
    exact progressAtWith_mono fl ε h t t2 ht h2
  · intro hlate
    cases hb : (updateProgressWith fl s t).2
    · rfl
    · have := hsnd.mp hb
      omega

/-- C18, as stated, fails for a success status other than 200: `clip.mp4` is
being uploaded and the server answers 201 with `task-1` and `stored.mp4`; the
test `xhr.status === 200` of line 242 sends the listener to its failure
branch, which shows `Upload failed. Please try again.`, records no uploaded
video, does not enter the contact-capture phase and keeps the file
selected. -/
theorem upload_201_not_recorded :
    (xhrListener sampleClip (handleVideoUpload stateWithClip false).1
      (.load 201 (some ⟨"task-1", "stored.mp4"⟩))).uploadStatus =
        some ⟨"error", "Upload failed. Please try again."⟩ ∧
    (xhrListener sampleClip (handleVideoUpload stateWithClip false).1
      (.load 201 (some ⟨"task-1", "stored.mp4"⟩))).uploadedVideo = none ∧
    (xhrListener sampleClip (handleVideoUpload stateWithClip false).1
      (.load 201 (some ⟨"task-1", "stored.mp4"⟩))).showPhoneInput = false ∧
    view (xhrListener sampleClip (handleVideoUpload stateWithClip false).1
      (.load 201 (some ⟨"task-1", "stored.mp4"⟩))) = View.upload ∧
    (xhrListener sampleClip (handleVideoUpload stateWithClip false).1
      (.load 201 (some ⟨"task-1", "stored.mp4"⟩))).selectedFile = some sampleClip := by
  decide


/-! ## The rounding of doubles is a rounding of small relative error -/

/-- Rounding to the nearest integer moves by at most a half. -/
theorem roundHalfEven_near (q : ℚ) :
    q - 1 / 2 ≤ (roundHalfEven q : ℚ) ∧ (roundHalfEven q : ℚ) ≤ q + 1 / 2 := by
  have hfl := Int.floor_le q
  have hlt := Int.lt_floor_add_one q
  unfold roundHalfEven
  by_cases h1 : q - ⌊q⌋ < 1 / 2
  · rw [if_pos h1]
    constructor <;> linarith
  · rw [if_neg h1]
    by_cases h2 : 1 / 2 < q - ⌊q⌋
    · rw [if_pos h2]
      push_cast
      constructor <;> linarith
    · rw [if_neg h2]
      have heq : q - ⌊q⌋ = 1 / 2 := le_antisymm (not_lt.mp h2) (not_lt.mp h1)
      by_cases h3 : ⌊q⌋ % 2 = 0
      · rw [if_pos h3]
        constructor <;> linarith
      · rw [if_neg h3]
        push_cast
        constructor <;> linarith

/-- Rounding to the nearest integer keeps the order. -/
theorem roundHalfEven_mono (q1 q2 : ℚ) (h : q1 ≤ q2) : roundHalfEven q1 ≤ roundHalfEven q2 := by
  by_contra hnot
  have hlt : roundHalfEven q2 + 1 ≤ roundHalfEven q1 := by omega
  have hcast : (roundHalfEven q2 : ℚ) + 1 ≤ (roundHalfEven q1 : ℚ) := by exact_mod_cast hlt
  have h1 := (roundHalfEven_near q1).2
  have h2 := (roundHalfEven_near q2).1
  have heq : q1 = q2 := by linarith
  rw [heq] at hnot
  exact hnot (le_refl _)

/-- An integer is its own rounding. -/
theorem roundHalfEven_int (n : Int) : roundHalfEven (n : ℚ) = n :=
  roundHalfEven_of_lt _ n (le_refl _) (by linarith)

/-- The significand of a positive number with `2 ^ e ≤ x < 2 ^ (e + 1)`, and
its rounding, lie between `2 ^ 52` and `2 ^ 53`. -/
theorem significand_bounds (x : ℚ) (e : Int) (h1 : (2 : ℚ) ^ e ≤ x)
    (h2 : x < (2 : ℚ) ^ (e + 1)) :
    (4503599627370496 : ℚ) ≤ x * 2 ^ (52 - e) ∧ x * 2 ^ (52 - e) < 9007199254740992 ∧
    (4503599627370496 : ℚ) ≤ (roundHalfEven (x * 2 ^ (52 - e)) : ℚ) ∧
    (roundHalfEven (x * 2 ^ (52 - e)) : ℚ) ≤ 9007199254740992 := by
  have hs : (0 : ℚ) < 2 ^ (52 - e) := zpow_pos (by norm_num) _
  have e1 : (2 : ℚ) ^ e * 2 ^ (52 - e) = 4503599627370496 := by
    rw [← zpow_add₀ (by norm_num : (2 : ℚ) ≠ 0)]
    have : e + (52 - e) = 52 := by ring
    rw [this]; norm_num
  have e2 : (2 : ℚ) ^ (e + 1) * 2 ^ (52 - e) = 9007199254740992 := by
    rw [← zpow_add₀ (by norm_num : (2 : ℚ) ≠ 0)]
    have : e + 1 + (52 - e) = 53 := by ring
    rw [this]; norm_num
  have hq1 : (4503599627370496 : ℚ) ≤ x * 2 ^ (52 - e) := by
    rw [← e1]; exact mul_le_mul_of_nonneg_right h1 hs.le
  have hq2 : x * 2 ^ (52 - e) < 9007199254740992 := by
    rw [← e2]; exact mul_lt_mul_of_pos_right h2 hs
  refine ⟨hq1, hq2, ?_, ?_⟩
  · have := roundHalfEven_mono ((4503599627370496 : Int) : ℚ) (x * 2 ^ (52 - e))
      (by push_cast; exact hq1)
    rw [roundHalfEven_int] at this
    exact_mod_cast this
  · have := roundHalfEven_mono (x * 2 ^ (52 - e)) ((9007199254740992 : Int) : ℚ)
      (by push_cast; exact hq2.le)
    rw [roundHalfEven_int] at this
    exact_mod_cast this

/-- The exponent of a positive number. -/
theorem exponent_bounds (x : ℚ) (hx : 0 < x) :
    (2 : ℚ) ^ Int.log 2 x ≤ x ∧ x < (2 : ℚ) ^ (Int.log 2 x + 1) := by
  constructor
  · exact_mod_cast Int.zpow_log_le_self (b := 2) (by norm_num) hx
  · exact_mod_cast Int.lt_zpow_succ_log_self (b := 2) (by norm_num) x

/-- The double nearest to a positive number lies in the same binade and within
the relative error `2 ^ (-53)`. -/
theorem roundDouble_pos (x : ℚ) (hx : 0 < x) :
    (2 : ℚ) ^ Int.log 2 x ≤ roundDouble x ∧ roundDouble x ≤ (2 : ℚ) ^ (Int.log 2 x + 1) ∧
    x * (1 - 1 / 9007199254740992) ≤ roundDouble x ∧
    roundDouble x ≤ x * (1 + 1 / 9007199254740992) := by
  obtain ⟨h1, h2⟩ := exponent_bounds x hx
  obtain ⟨_, _, hm1, hm2⟩ := significand_bounds x (Int.log 2 x) h1 h2
  obtain ⟨hn1, hn2⟩ := roundHalfEven_near (x * 2 ^ (52 - Int.log 2 x))
  rw [roundDouble_of_exponent x (Int.log 2 x) hx h1 h2]
  have hu : (0 : ℚ) < 2 ^ (Int.log 2 x - 52) := zpow_pos (by norm_num) _
  have hu1 : (4503599627370496 : ℚ) * 2 ^ (Int.log 2 x - 52) = 2 ^ Int.log 2 x := by
    have : (4503599627370496 : ℚ) = 2 ^ (52 : Int) := by norm_num
    rw [this, ← zpow_add₀ (by norm_num : (2 : ℚ) ≠ 0)]
    congr 1; ring
  have hu2 : (9007199254740992 : ℚ) * 2 ^ (Int.log 2 x - 52) = 2 ^ (Int.log 2 x + 1) := by
    have : (9007199254740992 : ℚ) = 2 ^ (53 : Int) := by norm_num
    rw [this, ← zpow_add₀ (by norm_num : (2 : ℚ) ≠ 0)]
    congr 1; ring
  have hxu : x * 2 ^ (52 - Int.log 2 x) * 2 ^ (Int.log 2 x - 52) = x := by
    rw [mul_assoc, ← zpow_add₀ (by norm_num : (2 : ℚ) ≠ 0)]
    have : 52 - Int.log 2 x + (Int.log 2 x - 52) = 0 := by ring
    rw [this, zpow_zero, mul_one]
  -- the unit in the last place is at most `x / 2 ^ 52`
  have hule : (2 : ℚ) ^ (Int.log 2 x - 52) ≤ x / 4503599627370496 := by
    rw [le_div_iff₀ (by norm_num)]
    rw [mul_comm, hu1]
    exact h1
  refine ⟨?_, ?_, ?_, ?_⟩
  · rw [← hu1]; exact mul_le_mul_of_nonneg_right hm1 hu.le
  · rw [← hu2]; exact mul_le_mul_of_nonneg_right hm2 hu.le
  · have hstep : (x * 2 ^ (52 - Int.log 2 x) - 1 / 2) * 2 ^ (Int.log 2 x - 52) ≤
        (roundHalfEven (x * 2 ^ (52 - Int.log 2 x)) : ℚ) * 2 ^ (Int.log 2 x - 52) :=
      mul_le_mul_of_nonneg_right hn1 hu.le
    have hexp : (x * 2 ^ (52 - Int.log 2 x) - 1 / 2) * 2 ^ (Int.log 2 x - 52) =
        x - 2 ^ (Int.log 2 x - 52) / 2 := by
      rw [sub_mul, hxu]; ring
    rw [hexp] at hstep
    have : x * (1 - 1 / 9007199254740992) = x - x / 4503599627370496 / 2 := by ring
    rw [this]
    linarith
  · have hstep : (roundHalfEven (x * 2 ^ (52 - Int.log 2 x)) : ℚ) * 2 ^ (Int.log 2 x - 52) ≤
        (x * 2 ^ (52 - Int.log 2 x) + 1 / 2) * 2 ^ (Int.log 2 x - 52) :=
      mul_le_mul_of_nonneg_right hn2 hu.le
    have hexp : (x * 2 ^ (52 - Int.log 2 x) + 1 / 2) * 2 ^ (Int.log 2 x - 52) =
        x + 2 ^ (Int.log 2 x - 52) / 2 := by
      rw [add_mul, hxu]; ring
    rw [hexp] at hstep
    have : x * (1 + 1 / 9007199254740992) = x + x / 4503599627370496 / 2 := by ring
    rw [this]
    linarith


theorem roundDouble_zero : roundDouble 0 = 0 := by
  simp [roundDouble]

/-- The rounding of doubles keeps the order of the numbers that are not
negative. -/
theorem roundDouble_mono (x y : ℚ) (hx : 0 ≤ x) (hxy : x ≤ y) :
    roundDouble x ≤ roundDouble y := by
  rcases eq_or_lt_of_le hx with hx0 | hxpos
  · rw [← hx0, roundDouble_zero]
    rcases eq_or_lt_of_le (le_trans hx hxy) with hy0 | hypos
    · rw [← hy0, roundDouble_zero]
    · exact le_trans (zpow_pos (by norm_num) _).le (roundDouble_pos y hypos).1
  · have hypos : 0 < y := lt_of_lt_of_le hxpos hxy
    have hlog : Int.log 2 x ≤ Int.log 2 y := Int.log_mono_right hxpos hxy
    rcases eq_or_lt_of_le hlog with heq | hlt
    · -- the same binade: the significands are ordered
      obtain ⟨hx1, hx2⟩ := exponent_bounds x hxpos
      obtain ⟨hy1, hy2⟩ := exponent_bounds y hypos
      rw [roundDouble_of_exponent x _ hxpos hx1 hx2, roundDouble_of_exponent y _ hypos hy1 hy2,
        ← heq]
      have hs : (0 : ℚ) ≤ 2 ^ (52 - Int.log 2 x) := (zpow_pos (by norm_num) _).le
      have hu : (0 : ℚ) ≤ 2 ^ (Int.log 2 x - 52) := (zpow_pos (by norm_num) _).le
      have hq : x * 2 ^ (52 - Int.log 2 x) ≤ y * 2 ^ (52 - Int.log 2 x) :=
        mul_le_mul_of_nonneg_right hxy hs
      have hm := roundHalfEven_mono _ _ hq
      exact mul_le_mul_of_nonneg_right (by exact_mod_cast hm) hu
    · -- a lower binade
      have h1 := (roundDouble_pos x hxpos).2.1
      have h2 := (roundDouble_pos y hypos).1
      have h3 : (2 : ℚ) ^ (Int.log 2 x + 1) ≤ 2 ^ Int.log 2 y :=
        zpow_le_zpow_right₀ (by norm_num) (by omega)
      linarith

/-- The rounding of doubles is monotone, exact on 0, 1 and 99, and of relative
error at most `2 ^ (-53)`. -/
theorem roundsWithin_roundDouble : RoundsWithin roundDouble (1 / 9007199254740992) :=
  { mono := roundDouble_mono
    zero := roundDouble_zero
    one := by
      rw [roundDouble_of_exponent 1 0 (by norm_num) (by norm_num) (by norm_num)]
      rw [roundHalfEven_of_lt _ 4503599627370496 (by norm_num) (by norm_num)]
      norm_num
    ninetyNine := by
      rw [roundDouble_of_exponent 99 6 (by norm_num) (by norm_num) (by norm_num)]
      rw [roundHalfEven_of_lt _ 6966505673588736 (by norm_num) (by norm_num)]
      norm_num
    eps_nonneg := by norm_num
    eps_le := by norm_num
    near := fun x hx _ =>
      ⟨(roundDouble_pos x (by linarith)).2.2.1, (roundDouble_pos x (by linarith)).2.2.2⟩ }


/-- Instance of the amended C11. In exact arithmetic, after 3 minutes the
progress is 49.5 and a tick is scheduled, and after 6 minutes it is 99 and no
tick is scheduled. In double arithmetic, at 2300 ms the progress is within the
relative error `2 ^ (-52) + 2 ^ (-106)` of `253 / 400` and a tick is scheduled,
and after 6 minutes the progress is 99. -/
theorem updateProgress_rounded_witness :
    progressAtWith id 180000 = 99 / 2 ∧
    (updateProgressWith id processingState 180000).2 = true ∧
    progressAtWith id 360000 = 99 ∧
    (updateProgressWith id processingState 360000).2 = false ∧
    |progressAtWith roundDouble 2300 - 253 / 400| ≤
      253 / 400 * (2 * (1 / 9007199254740992) +
        1 / 9007199254740992 * (1 / 9007199254740992)) ∧
    (updateProgressWith roundDouble processingState 2300).2 = true ∧
    progressAtWith roundDouble 360000 = 99 := by
  have h1 := updateProgress_rounded id 0 roundsWithin_id processingState 180000 (by decide)
  have h2 := updateProgress_rounded id 0 roundsWithin_id processingState 360000 (by decide)
  have h3 := updateProgress_rounded roundDouble (1 / 9007199254740992) roundsWithin_roundDouble
    processingState 2300 (by decide)
  have h4 := updateProgress_rounded roundDouble (1 / 9007199254740992) roundsWithin_roundDouble
    processingState 360000 (by decide)
  have hexact : min (99 * ((2300 : Int) : ℚ) / 360000) 99 = 253 / 400 := by norm_num
  refine ⟨?_, h1.2.2.2.2.2.2.2.2.1.mpr (by decide), h2.2.2.2.2.2.2.2.1 (le_refl _),
    h2.2.2.2.2.2.2.2.2.2 (le_refl _), ?_, h3.2.2.2.2.2.2.2.2.1.mpr (by decide),
    h4.2.2.2.2.2.2.2.1 (le_refl _)⟩
  · rw [h1.2.2.1]
    norm_num
  · have h := h3.2.1
    rw [hexact] at h
    exact h

end MakeReels
